import Mathlib

/-!
Verification of the kl-http HTTP/1.1 message codec (src/lib.rs).

The codec is shallowly embedded: byte streams are lists of natural numbers
(each < 256 where relevant), the `httparse` head parser and the `http` crate
header map are modelled by executable Lean functions that mirror the behaviour
the Rust code relies on, and the crate functions `read_head`,
`parse_into_request`, `parse_into_response`, `to_http` and `respond` are
translated line by line.
-/

set_option maxHeartbeats 1000000
set_option maxRecDepth 100000

namespace KlHttp

/-- Bytes of an ASCII string literal. -/
def strBytes (s : String) : List Nat := s.toList.map Char.toNat

/-- httparse token (header-name / method) characters: alphanumerics plus
the RFC 7230 token specials. -/
def tokenByte (b : Nat) : Bool :=
  (48 ≤ b && b ≤ 57) || (65 ≤ b && b ≤ 90) || (97 ≤ b && b ≤ 122) ||
  b == 33 || (35 ≤ b && b ≤ 39) || b == 42 || b == 43 || b == 45 || b == 46 ||
  b == 94 || b == 95 || b == 96 || b == 124 || b == 126

/-- httparse request-target characters: visible ASCII (no space, no DEL). -/
def uriByte (b : Nat) : Bool := 33 ≤ b && b ≤ 126

/-- Request-target characters the `http` crate's `Uri` parsing accepts (its
URI_CHARS table): visible ASCII without the rejected delimiters
(the double quote and the bytes 60 `<`, 62 `>`, 92, 94, 96, 123, 124, 125).
httparse passes those bytes through, so `Builder::uri` is where they are
caught. -/
def httpUriByte (b : Nat) : Bool :=
  (33 ≤ b && b ≤ 126) && !(b == 34 || b == 60 || b == 62 || b == 92 ||
    b == 94 || b == 96 || b == 123 || b == 124 || b == 125)

/-- httparse / `http::HeaderValue` value characters: tab or any byte in
32..=255 other than DEL. -/
def valueByte (b : Nat) : Bool := b == 9 || (32 ≤ b && b ≤ 255 && b != 127)

/-- Bytes accepted inside a status-line reason phrase. -/
def reasonByte (b : Nat) : Bool := b == 9 || (32 ≤ b && b ≤ 255 && b != 127)

/-- Space or horizontal tab. -/
def blankByte (b : Nat) : Bool := b == 32 || b == 9

/-- ASCII decimal digit. -/
def digitByte (b : Nat) : Bool := 48 ≤ b && b ≤ 57

/-- ASCII lower-casing of one byte (`http::HeaderName` normalisation). -/
def lowerByte (b : Nat) : Nat := if 65 ≤ b && b ≤ 90 then b + 32 else b

/-- ASCII lower-casing of a name. -/
def lowerName (n : List Nat) : List Nat := n.map lowerByte

/-- Token byte that is already lower-case (what `http::HeaderName` stores). -/
def lcTokenByte (b : Nat) : Bool := tokenByte b && !(65 ≤ b && b ≤ 90)

/-- `BufRead::read_until`: the consumed line (delimiter included when found)
together with the unconsumed remainder of the stream. -/
def readUntil (d : Nat) : List Nat → List Nat × List Nat
  | [] => ([], [])
  | b :: rest =>
    if b = d then ([b], rest)
    else
      let pr := readUntil d rest
      (b :: pr.1, pr.2)

/-- Loop body of `read_head` (src/lib.rs lines 240-245): keep reading lines;
stop after a line of zero bytes (end of stream) or a line that is exactly
`\r\n`.  `fuel` bounds the iteration count; any `fuel` larger than the
stream length is enough, so `read_head` below passes the stream length. -/
def head_loop : Nat → List Nat → List Nat → List Nat × List Nat
  | 0, buff, s => (buff, s)
  | fuel + 1, buff, s =>
    let pr := readUntil 10 s
    if pr.1 = [13, 10] ∨ pr.1 = [] then (buff ++ pr.1, pr.2)
    else head_loop fuel (buff ++ pr.1) pr.2

/-- `read_head` (src/lib.rs lines 234-248): read the first line
unconditionally, then loop until a `\r\n` line or end of stream.  Returns
the accumulated head bytes and the unread remainder. -/
def read_head (s : List Nat) : List Nat × List Nat :=
  let pr := readUntil 10 s
  if pr.1 = [] then (pr.1, pr.2)
  else head_loop s.length pr.1 pr.2

/-- The `httparse` error cases the codec can hit, with their
`Error::description` strings produced by `hpErrMsg`. -/
inductive HttparseError
  | tooManyHeaders
  | headerName
  | headerValue
  | token
  | newLine
  | badVersion
  | badStatus
deriving DecidableEq, Repr

def hpErrMsg : HttparseError → String
  | .tooManyHeaders => "too many headers"
  | .headerName => "invalid header name"
  | .headerValue => "invalid header value"
  | .token => "invalid token"
  | .newLine => "invalid new line"
  | .badVersion => "invalid HTTP version"
  | .badStatus => "invalid status"

/-- Result of matching a literal byte sequence against the input head. -/
inductive MatchRes
  | hit (rest : List Nat)
  | ranOut
  | miss
deriving DecidableEq, Repr

def matchLit : List Nat → List Nat → MatchRes
  | [], rest => .hit rest
  | _ :: _, [] => .ranOut
  | l :: ls, b :: bs => if b = l then matchLit ls bs else .miss

/-- Remove trailing spaces and tabs from a header value (httparse trims
optional trailing whitespace off field values). -/
def trimTrailing (v : List Nat) : List Nat := (v.reverse.dropWhile blankByte).reverse

/-- httparse `skip_empty_lines`: leading `\r\n` / `\n` pairs before the first
line are skipped; `none` models a `Partial` result (end of input). -/
def skipEmptyLines : List Nat → Except HttparseError (Option (List Nat))
  | [] => .ok none
  | b :: tl =>
    if b = 13 then
      match tl with
      | [] => .ok none
      | b2 :: r => if b2 = 10 then skipEmptyLines r else .error .newLine
    else if b = 10 then skipEmptyLines tl
    else .ok (some (b :: tl))

/-- Outcome of parsing a request line: `rlMore` models a `Partial` parse
(fields recorded so far), `rlDone` a complete line with the rest of the
head. -/
inductive RLOut
  | rlMore (m p : Option (List Nat))
  | rlDone (m p : List Nat) (rest : List Nat)
deriving DecidableEq, Repr

/-- Line end after the request line's version: `\r\n` or a bare `\n`. -/
def hpReqEnd (m u : List Nat) : List Nat → Except HttparseError RLOut
  | [] => .ok (.rlMore (some m) (some u))
  | e :: r6 =>
    if e = 13 then
      match r6 with
      | [] => .ok (.rlMore (some m) (some u))
      | f :: r7 => if f = 10 then .ok (.rlDone m u r7) else .error .newLine
    else if e = 10 then .ok (.rlDone m u r6)
    else .error .newLine

/-- The `HTTP/1.x` version token of the request line. -/
def hpReqVersion (m u r3 : List Nat) : Except HttparseError RLOut :=
  match matchLit (strBytes ("HTTP/1.")) r3 with
  | .ranOut => .ok (.rlMore (some m) (some u))
  | .miss => .error .badVersion
  | .hit r4 =>
    match r4 with
    | [] => .ok (.rlMore (some m) (some u))
    | d :: r5 => if d = 48 ∨ d = 49 then hpReqEnd m u r5 else .error .badVersion

/-- The request target and the space after it. -/
def hpReqUri (m r2 : List Nat) : Except HttparseError RLOut :=
  let u := r2.takeWhile uriByte
  match r2.dropWhile uriByte with
  | [] => .ok (.rlMore (some m) none)
  | c2 :: r3 =>
    if c2 = 32 then
      if u = [] then .error .token else hpReqVersion m u r3
    else .error .token

/-- httparse request-line parsing: `METHOD SP TARGET SP HTTP/1.x CRLF`
(a bare `\n` line end is also accepted). -/
def hpRequestLine (s : List Nat) : Except HttparseError RLOut :=
  let m := s.takeWhile tokenByte
  match s.dropWhile tokenByte with
  | [] => .ok (.rlMore none none)
  | c :: r2 =>
    if c = 32 then
      if m = [] then .error .token else hpReqUri m r2
    else .error .token

/-- Outcome of parsing one header line. -/
inductive HLOut
  | hlDone (nm v rest : List Nat)
  | hlMore
  | hlErr (e : HttparseError)
deriving DecidableEq, Repr

/-- One `NAME ':' OWS VALUE CRLF` header line (the input starts with a byte
that is neither `\r` nor `\n`): the name is a nonempty token run up to the
colon, optional leading blanks of the value are skipped and trailing blanks
trimmed, and the line ends with `\r\n` or a bare `\n`.  `hlMore` models the
input running out mid-line (a `Partial` parse that drops the unfinished
line). -/
def hpHeaderLine (s : List Nat) : HLOut :=
  let nm := s.takeWhile tokenByte
  match s.dropWhile tokenByte with
  | [] => .hlMore
  | c :: r2 =>
    if c = 58 then
      if nm = [] then .hlErr .headerName
      else
        let r3 := r2.dropWhile blankByte
        let v := r3.takeWhile valueByte
        match r3.dropWhile valueByte with
        | [] => .hlMore
        | e :: r5 =>
          if e = 13 then
            match r5 with
            | [] => .hlMore
            | f :: r6 => if f = 10 then .hlDone nm (trimTrailing v) r6 else .hlErr .headerValue
          else if e = 10 then .hlDone nm (trimTrailing v) r5
          else .hlErr .headerValue
    else .hlErr .headerName

/-- httparse header-section parsing into the fixed 16-slot array:
one header line per iteration, stopping at the empty line; starting a line
with all `maxH` slots used is `TooManyHeaders`.  `fuel` bounds the iteration
count; any value at least the byte count of the section is enough, so the
callers pass the remaining head length.  Running out of input models a
`Partial` result carrying the headers parsed so far (the crate ignores the
`Partial`/`Complete` distinction). -/
def hpHeadersLoop (maxH : Nat) :
    Nat → List (List Nat × List Nat) → List Nat →
    Except HttparseError (List (List Nat × List Nat))
  | 0, acc, _ => .ok acc
  | fuel + 1, acc, s =>
    match s with
    | [] => .ok acc
    | b :: tl =>
      if b = 13 then
        match tl with
        | [] => .ok acc
        | b2 :: _ => if b2 = 10 then .ok acc else .error .newLine
      else if b = 10 then .ok acc
      else if acc.length = maxH then .error .tooManyHeaders
      else
        match hpHeaderLine (b :: tl) with
        | .hlMore => .ok acc
        | .hlErr e => .error e
        | .hlDone nm v r6 => hpHeadersLoop maxH fuel (acc ++ [(nm, v)]) r6

/-- What the crate reads back out of a parsed `httparse::Request`:
the optional method and path and the header slice (`Partial` parses leave
later fields unset, matching httparse's in-place assignments). -/
structure HReq where
  method : Option (List Nat)
  path : Option (List Nat)
  headers : List (List Nat × List Nat)
deriving DecidableEq, Repr

/-- The header section of a request head, after a complete request line. -/
def httparseReqHeaders (maxH : Nat) (m p rest : List Nat) : Except HttparseError HReq :=
  match hpHeadersLoop maxH rest.length [] rest with
  | .error e => .error e
  | .ok hs => .ok ⟨some m, some p, hs⟩

/-- A request head after empty-line skipping. -/
def httparseReqLine (maxH : Nat) (s1 : List Nat) : Except HttparseError HReq :=
  match hpRequestLine s1 with
  | .error e => .error e
  | .ok (.rlMore m p) => .ok ⟨m, p, []⟩
  | .ok (.rlDone m p rest) => httparseReqHeaders maxH m p rest

/-- `httparse::Request::parse` with a `maxH`-slot header array. -/
def httparseRequest (maxH : Nat) (s : List Nat) : Except HttparseError HReq :=
  match skipEmptyLines s with
  | .error e => .error e
  | .ok none => .ok ⟨none, none, []⟩
  | .ok (some s1) => httparseReqLine maxH s1

/-- What the crate reads back out of a parsed `httparse::Response`:
the optional status code (never used by the crate) and the headers. -/
structure HResp where
  code : Option Nat
  headers : List (List Nat × List Nat)
deriving DecidableEq, Repr

/-- Outcome of parsing a status line. -/
inductive SLOut
  | slMore (code : Option Nat)
  | slDone (code : Nat) (rest : List Nat)
deriving DecidableEq, Repr

/-- Reason phrase and line end after the 3-digit status code. -/
def hpAfterCode (code : Nat) (r4 : List Nat) : Except HttparseError SLOut :=
  match r4 with
  | [] => .ok (.slMore (some code))
  | b :: r5 =>
    if b = 32 then
      match r5.dropWhile reasonByte with
      | [] => .ok (.slMore (some code))
      | e :: r6 =>
        if e = 13 then
          match r6 with
          | [] => .ok (.slMore (some code))
          | f :: r7 => if f = 10 then .ok (.slDone code r7) else .error .badStatus
        else if e = 10 then .ok (.slDone code r6)
        else .error .badStatus
    else if b = 13 then
      match r5 with
      | [] => .ok (.slMore (some code))
      | f :: r7 => if f = 10 then .ok (.slDone code r7) else .error .badStatus
    else if b = 10 then .ok (.slDone code r5)
    else .error .badStatus

/-- The 3-digit status code after `HTTP/1.x SP`. -/
def hpStatusCode (r3 : List Nat) : Except HttparseError SLOut :=
  match r3 with
  | [] => .ok (.slMore none)
  | d1 :: r3a =>
    if digitByte d1 then
      match r3a with
      | [] => .ok (.slMore none)
      | d2 :: r3b =>
        if digitByte d2 then
          match r3b with
          | [] => .ok (.slMore none)
          | d3 :: r4 =>
            if digitByte d3 then
              hpAfterCode ((d1 - 48) * 100 + (d2 - 48) * 10 + (d3 - 48)) r4
            else .error .badStatus
        else .error .badStatus
    else .error .badStatus

/-- httparse status-line parsing: `HTTP/1.x SP CODE [SP REASON] CRLF`. -/
def hpStatusLine (s : List Nat) : Except HttparseError SLOut :=
  match matchLit (strBytes ("HTTP/1.")) s with
  | .ranOut => .ok (.slMore none)
  | .miss => .error .badVersion
  | .hit r1 =>
    match r1 with
    | [] => .ok (.slMore none)
    | d :: r2 =>
      if d = 48 ∨ d = 49 then
        match r2 with
        | [] => .ok (.slMore none)
        | c :: r3 => if c = 32 then hpStatusCode r3 else .error .badStatus
      else .error .badVersion

/-- The header section of a response head, after a complete status line. -/
def httparseRespHeaders (maxH : Nat) (c : Nat) (rest : List Nat) : Except HttparseError HResp :=
  match hpHeadersLoop maxH rest.length [] rest with
  | .error e => .error e
  | .ok hs => .ok ⟨some c, hs⟩

/-- A response head after empty-line skipping. -/
def httparseRespLine (maxH : Nat) (s1 : List Nat) : Except HttparseError HResp :=
  match hpStatusLine s1 with
  | .error e => .error e
  | .ok (.slMore c) => .ok ⟨c, []⟩
  | .ok (.slDone c rest) => httparseRespHeaders maxH c rest

/-- `httparse::Response::parse` with a `maxH`-slot header array. -/
def httparseResponse (maxH : Nat) (s : List Nat) : Except HttparseError HResp :=
  match skipEmptyLines s with
  | .error e => .error e
  | .ok none => .ok ⟨none, []⟩
  | .ok (some s1) => httparseRespLine maxH s1

/-- `http::HeaderMap<HeaderValue>` as the crate observes it: entries in
first-insertion order, each entry holding the stored (lower-cased) name and
its values in insertion order.  Iteration yields every value of an entry
before moving to the next entry, which is how duplicate names get grouped. -/
abbrev HeaderMap := List (List Nat × List (List Nat))

/-- `HeaderMap::iter`: all `(name, value)` pairs, values of one entry
consecutively, entries in first-insertion order. -/
def flattenHeaders (hm : HeaderMap) : List (List Nat × List Nat) :=
  hm.bind (fun e => e.2.map (fun v => (e.1, v)))

/-- `HeaderMap::append` (what `Builder::header` calls): a new name becomes a
new trailing entry; an existing name gets the value added to its entry. -/
def hmAppend (hm : HeaderMap) (n : List Nat) (v : List Nat) : HeaderMap :=
  match hm with
  | [] => [(n, [v])]
  | e :: rest => if e.1 = n then (e.1, e.2 ++ [v]) :: rest else e :: hmAppend rest n v

/-- `HeaderMap::insert`: replaces the values of an existing entry, otherwise
appends a new trailing entry. -/
def hmInsert (hm : HeaderMap) (n : List Nat) (v : List Nat) : HeaderMap :=
  match hm with
  | [] => [(n, [v])]
  | e :: rest => if e.1 = n then (n, [v]) :: rest else e :: hmInsert rest n v

/-- The stored name `content-length` the crate compares against. -/
def clName : List Nat := strBytes ("content-length")

def invalidNameMsg : String := "invalid header name"
def invalidUriMsg : String := "invalid uri character"

def invalidValueMsg : String := "invalid header value"

def ioEofMsg : String := "failed to fill whole buffer"

def emptyIntMsg : String := "cannot parse integer from empty string"

def invalidDigitMsg : String := "invalid digit found in string"

def overflowMsg : String := "number too large to fit in target type"

/-- `HeaderName` validity check performed by `Builder::header`. -/
def checkName (n : List Nat) : Bool := !n.isEmpty && n.all tokenByte

/-- `HeaderValue` validity check performed by `Builder::header`. -/
def checkValue (v : List Nat) : Bool := v.all valueByte

/-- Replaying `Builder::header` over the parsed header pairs: validate,
lower-case the name, and `append` into the map.  The first failure is the
one surfaced by `Builder::body`. -/
def buildFold : HeaderMap → List (List Nat × List Nat) → Except String HeaderMap
  | hm, [] => .ok hm
  | hm, h :: rest =>
    if checkName h.1 then
      if checkValue h.2 then buildFold (hmAppend hm (lowerName h.1) h.2) rest
      else .error invalidValueMsg
    else .error invalidNameMsg

/-- `String::from_utf8_lossy(value).parse::<usize>()`: an optional leading
`+`, then at least one ASCII digit, with the 64-bit overflow check; any
other byte (including the replacement characters a lossy UTF-8 conversion
would introduce) is an invalid digit. -/
def parseUsizeDigits (v ds : List Nat) : Except String Nat :=
  if ds = [] then .error (if v = [] then emptyIntMsg else invalidDigitMsg)
  else if ds.all digitByte then
    if ds.foldl (fun a b => a * 10 + (b - 48)) 0 < 2 ^ 64 then
      .ok (ds.foldl (fun a b => a * 10 + (b - 48)) 0)
    else .error overflowMsg
  else .error invalidDigitMsg

def parseUsize (v : List Nat) : Except String Nat :=
  parseUsizeDigits v (if v.head? = some 43 then v.tail else v)

/-- The content-length lookup shared by `parse_into_request` and
`parse_into_response` (src/lib.rs lines 142-149 and 206-213): the first
header whose name is byte-for-byte `content-length` (the `&str` comparison
in the source is case-sensitive), absent means zero. -/
def bodyLength (hs : List (List Nat × List Nat)) : Except String Nat :=
  match hs.find? (fun h => decide (h.1 = clName)) with
  | some h => parseUsize h.2
  | none => .ok 0

/-- `Read::read_exact` into a `body_length`-sized buffer: fails when fewer
bytes are available, otherwise yields exactly `n` bytes. -/
def readExact (n : Nat) (s : List Nat) : Except String (List Nat) :=
  if s.length < n then .error ioEofMsg else .ok (s.take n)

/-- ASCII decimal digits of `n`; `fuel` bounds the digit count and any value
above `n` is enough (`decimalBytes` passes `n + 1`). -/
def decDigits : Nat → Nat → List Nat
  | 0, _ => []
  | f + 1, n => if n < 10 then [48 + n] else decDigits f (n / 10) ++ [48 + n % 10]

/-- `usize::to_string` as bytes. -/
def decimalBytes (n : Nat) : List Nat := decDigits (n + 1) n

/-- `http::Version` as the crate uses it (only HTTP/1.x is parseable and the
builders always store `HTTP_11`). -/
inductive HVersion
  | http10
  | http11
deriving DecidableEq, Repr

/-- `format!("{:?}", version)`. -/
def versionBytes : HVersion → List Nat
  | .http10 => strBytes ("HTTP/1.0")
  | .http11 => strBytes ("HTTP/1.1")

/-- `StatusCode::canonical_reason`: the registered reason phrases, with the
`http` crate's placeholder for codes that have none. -/
def reasonPhrase (c : Nat) : List Nat :=
  if c = 100 then strBytes ("Continue")
  else if c = 101 then strBytes ("Switching Protocols")
  else if c = 102 then strBytes ("Processing")
  else if c = 200 then strBytes ("OK")
  else if c = 201 then strBytes ("Created")
  else if c = 202 then strBytes ("Accepted")
  else if c = 203 then strBytes ("Non Authoritative Information")
  else if c = 204 then strBytes ("No Content")
  else if c = 205 then strBytes ("Reset Content")
  else if c = 206 then strBytes ("Partial Content")
  else if c = 207 then strBytes ("Multi-Status")
  else if c = 208 then strBytes ("Already Reported")
  else if c = 226 then strBytes ("IM Used")
  else if c = 300 then strBytes ("Multiple Choices")
  else if c = 301 then strBytes ("Moved Permanently")
  else if c = 302 then strBytes ("Found")
  else if c = 303 then strBytes ("See Other")
  else if c = 304 then strBytes ("Not Modified")
  else if c = 305 then strBytes ("Use Proxy")
  else if c = 307 then strBytes ("Temporary Redirect")
  else if c = 308 then strBytes ("Permanent Redirect")
  else if c = 400 then strBytes ("Bad Request")
  else if c = 401 then strBytes ("Unauthorized")
  else if c = 402 then strBytes ("Payment Required")
  else if c = 403 then strBytes ("Forbidden")
  else if c = 404 then strBytes ("Not Found")
  else if c = 405 then strBytes ("Method Not Allowed")
  else if c = 406 then strBytes ("Not Acceptable")
  else if c = 407 then strBytes ("Proxy Authentication Required")
  else if c = 408 then strBytes ("Request Timeout")
  else if c = 409 then strBytes ("Conflict")
  else if c = 410 then strBytes ("Gone")
  else if c = 411 then strBytes ("Length Required")
  else if c = 412 then strBytes ("Precondition Failed")
  else if c = 413 then strBytes ("Payload Too Large")
  else if c = 414 then strBytes ("URI Too Long")
  else if c = 415 then strBytes ("Unsupported Media Type")
  else if c = 416 then strBytes ("Range Not Satisfiable")
  else if c = 417 then strBytes ("Expectation Failed")
  else if c = 418 then strBytes ("I'm a teapot")
  else if c = 421 then strBytes ("Misdirected Request")
  else if c = 422 then strBytes ("Unprocessable Entity")
  else if c = 423 then strBytes ("Locked")
  else if c = 424 then strBytes ("Failed Dependency")
  else if c = 426 then strBytes ("Upgrade Required")
  else if c = 428 then strBytes ("Precondition Required")
  else if c = 429 then strBytes ("Too Many Requests")
  else if c = 431 then strBytes ("Request Header Fields Too Large")
  else if c = 451 then strBytes ("Unavailable For Legal Reasons")
  else if c = 500 then strBytes ("Internal Server Error")
  else if c = 501 then strBytes ("Not Implemented")
  else if c = 502 then strBytes ("Bad Gateway")
  else if c = 503 then strBytes ("Service Unavailable")
  else if c = 504 then strBytes ("Gateway Timeout")
  else if c = 505 then strBytes ("HTTP Version Not Supported")
  else if c = 506 then strBytes ("Variant Also Negotiates")
  else if c = 507 then strBytes ("Insufficient Storage")
  else if c = 508 then strBytes ("Loop Detected")
  else if c = 510 then strBytes ("Not Extended")
  else if c = 511 then strBytes ("Network Authentication Required")
  else strBytes ("<unknown status code>")

/-- `format!("{}", status)` for a `http::StatusCode`. -/
def statusDisplay (c : Nat) : List Nat := decimalBytes c ++ [32] ++ reasonPhrase c

/-- `http::Request<Vec<u8>>` as the codec observes it. -/
structure Request where
  method : List Nat
  uri : List Nat
  version : HVersion
  headers : HeaderMap
  body : List Nat
deriving DecidableEq, Repr

/-- `http::Response<Vec<u8>>` as the codec observes it. -/
structure Response where
  status : Nat
  version : HVersion
  headers : HeaderMap
  body : List Nat
deriving DecidableEq, Repr

/-- The header block of a serialised message: one `NAME: VALUE\r\n` line per
iterated pair (src/lib.rs lines 283-290 and 343-350). -/
def headerLinesBytes (hs : List (List Nat × List Nat)) : List Nat :=
  hs.bind (fun h => h.1 ++ [58, 32] ++ h.2 ++ [13, 10])

/-- `HttpSerialise::to_http` for `http::Request<Vec<u8>>`
(src/lib.rs lines 277-298). -/
def Request.to_http (r : Request) : List Nat :=
  r.method ++ [32] ++ r.uri ++ [32] ++ versionBytes r.version ++ [13, 10] ++
    headerLinesBytes (flattenHeaders r.headers) ++ [13, 10] ++ r.body

/-- `HttpSerialise::to_http` for `http::Response<Vec<u8>>`
(src/lib.rs lines 337-358). -/
def Response.to_http (r : Response) : List Nat :=
  versionBytes r.version ++ [32] ++ statusDisplay r.status ++ [13, 10] ++
    headerLinesBytes (flattenHeaders r.headers) ++ [13, 10] ++ r.body

instance {ε α : Type} [DecidableEq ε] [DecidableEq α] : DecidableEq (Except ε α) := fun x y =>
  match x, y with
  | .error a, .error b =>
    if h : a = b then .isTrue (by rw [h]) else .isFalse (by intro hc; cases hc; exact h rfl)
  | .ok a, .ok b =>
    if h : a = b then .isTrue (by rw [h]) else .isFalse (by intro hc; cases hc; exact h rfl)
  | .error _, .ok _ => .isFalse (by intro hc; cases hc)
  | .ok _, .error _ => .isFalse (by intro hc; cases hc)

/-- The error enum of the crate (src/lib.rs lines 377-383). -/
inductive HttpRequestError
  | ParsingError (msg : String)
  | ContentLengthParsingError (msg : String)
  | IOError (msg : String)
  | BodyWritingError (msg : String)
deriving DecidableEq, Repr

/-- The `Builder::uri` validation performed by `request.uri(path)`
(src/lib.rs line 156): the path httparse handed over is re-parsed as a
`http::Uri`, whose character table rejects bytes such as `<` or 123 that
httparse accepts.  Modelled at the character level (`httpUriByte`, plus the
non-empty check); no call is made when httparse left the path unset.  A
failure is recorded by the builder and only surfaces at `body()`. -/
def checkUri : Option (List Nat) → Bool
  | none => true
  | some p => !p.isEmpty && p.all httpUriByte

/-- `parse_into_request` (src/lib.rs lines 133-174): read the head, parse it
with a 16-slot httparse request, look up the first `content-length` header
for the body length, read exactly that many body bytes, and finalise the
`http::Request` builder (method/path defaults `GET` and `/`, version forced
to HTTP/1.1, headers appended in parse order).  Error order matches the
source's `?` operators: `read_exact` (line 166) fails first, then `body()`
(line 171) surfaces the first builder error in call order — `Builder::uri`
(line 156; httparse methods always pass `http::Method`) before the header
insertions (lines 160-162). -/
def requestOfParts (hr : HReq) (n : Nat) (rest : List Nat) : Except HttpRequestError Request :=
  match readExact n rest with
  | .error e => .error (.IOError e)
  | .ok body =>
    if checkUri hr.path then
      match buildFold [] hr.headers with
      | .error e => .error (.BodyWritingError e)
      | .ok hm =>
        .ok { method := hr.method.getD (strBytes ("GET")),
              uri := hr.path.getD (strBytes ("/")),
              version := .http11, headers := hm, body := body }
    else .error (.BodyWritingError invalidUriMsg)

/-- Body read and builder finalisation after a parsed request head. -/
def requestOfHead (hr : HReq) (rest : List Nat) : Except HttpRequestError Request :=
  match bodyLength hr.headers with
  | .error e => .error (.ContentLengthParsingError e)
  | .ok n => requestOfParts hr n rest

def parse_into_request (s : List Nat) : Except HttpRequestError Request :=
  let hd := read_head s
  match httparseRequest 16 hd.1 with
  | .error e => .error (.ParsingError (hpErrMsg e))
  | .ok hr => requestOfHead hr hd.2

/-- `parse_into_response` (src/lib.rs lines 196-232): the response analogue;
the parsed status code and reason are never read, so the builder's default
status 200 is what every parsed response carries. -/
def responseOfParts (hr : HResp) (n : Nat) (rest : List Nat) : Except HttpRequestError Response :=
  match readExact n rest with
  | .error e => .error (.IOError e)
  | .ok body =>
    match buildFold [] hr.headers with
    | .error e => .error (.BodyWritingError e)
    | .ok hm =>
      .ok { status := 200, version := .http11, headers := hm, body := body }

/-- Body read and builder finalisation after a parsed response head. -/
def responseOfHead (hr : HResp) (rest : List Nat) : Except HttpRequestError Response :=
  match bodyLength hr.headers with
  | .error e => .error (.ContentLengthParsingError e)
  | .ok n => responseOfParts hr n rest

def parse_into_response (s : List Nat) : Except HttpRequestError Response :=
  let hd := read_head s
  match httparseResponse 16 hd.1 with
  | .error e => .error (.ParsingError (hpErrMsg e))
  | .ok hr => responseOfHead hr hd.2

/-- `HttpRequest::respond` (src/lib.rs lines 96-114) without the socket:
inject a `content-length` header when no header of that (stored, hence
case-insensitively matched) name exists, then serialise.  Returns the
response as mutated and the bytes written to the stream. -/
def respond (resp : Response) : Response × List Nat :=
  let resp2 :=
    if (flattenHeaders resp.headers).any (fun h => decide (h.1 = clName)) then resp
    else { resp with headers := hmInsert resp.headers clName (decimalBytes resp.body.length) }
  (resp2, resp2.to_http)

/-- A sequence of complete non-terminator head lines: each line is some
`xs ++ [10]` with no interior line feed and different from the bare `\r\n`
terminator. -/
inductive NTLines : List Nat → Prop
  | nil : NTLines []
  | cons (xs rest : List Nat) : 10 ∉ xs → xs ≠ [13] → NTLines rest →
      NTLines (xs ++ [10] ++ rest)

/-- Well-formed header-name bytes as emitted by `HeaderName::as_str`:
nonempty and made of token characters. -/
def wfName (n : List Nat) : Prop := n ≠ [] ∧ ∀ b ∈ n, tokenByte b = true

/-- Header-name bytes as stored by `http::HeaderMap`: additionally already
lower-case. -/
def wfStoredName (n : List Nat) : Prop := n ≠ [] ∧ ∀ b ∈ n, lcTokenByte b = true

/-- Header-value bytes that httparse hands back unchanged: valid value
characters with no leading or trailing blank for httparse to strip. -/
def wfValue (v : List Nat) : Prop :=
  (∀ b ∈ v, valueByte b = true) ∧ (∀ b, v.head? = some b → blankByte b = false) ∧
  (∀ b, v.getLast? = some b → blankByte b = false)

/-- Well-formed header pairs, one per wire line. -/
def wfPairs (hs : List (List Nat × List Nat)) : Prop :=
  ∀ h ∈ hs, wfName h.1 ∧ wfValue h.2

/-- A method as rendered from `http::Method`: a nonempty token. -/
def wfMethod (m : List Nat) : Prop := m ≠ [] ∧ ∀ b ∈ m, tokenByte b = true

/-- A request target as rendered from `http::Uri`: nonempty visible ASCII. -/
def wfUri (u : List Nat) : Prop := u ≠ [] ∧ ∀ b ∈ u, uriByte b = true

instance (n : List Nat) : Decidable (wfName n) := by
  unfold wfName
  infer_instance

instance (n : List Nat) : Decidable (wfStoredName n) := by
  unfold wfStoredName
  infer_instance

instance (v : List Nat) : Decidable (wfValue v) := by
  unfold wfValue
  infer_instance

instance (hs : List (List Nat × List Nat)) : Decidable (wfPairs hs) := by
  unfold wfPairs
  infer_instance

instance (m : List Nat) : Decidable (wfMethod m) := by
  unfold wfMethod
  infer_instance

instance (u : List Nat) : Decidable (wfUri u) := by
  unfold wfUri
  infer_instance

/-- An origin-form request target that every layer of the program accepts
and reproduces byte-for-byte: it starts with a slash, carries no fragment
delimiter 35 (`http::Uri` would silently drop a fragment), and uses only
bytes from the crate's URI character table. -/
def wfHttpUri (u : List Nat) : Prop :=
  u.head? = some 47 ∧ 35 ∉ u ∧ ∀ b ∈ u, httpUriByte b = true

instance (u : List Nat) : Decidable (wfHttpUri u) := by
  unfold wfHttpUri
  infer_instance

/-- The wire bytes `parse_into_request` consumes for a message with request
line `m SP u SP HTTP/1.1`, header pairs `hs` and remaining stream `tail`. -/
def mkReqStream (m u : List Nat) (hs : List (List Nat × List Nat))
    (tail : List Nat) : List Nat :=
  m ++ [32] ++ u ++ [32] ++ strBytes ("HTTP/1.1") ++ [13, 10] ++
    headerLinesBytes hs ++ [13, 10] ++ tail

/-- Invariant of a `http::HeaderMap` value: entry names pairwise distinct,
well-formed and stored lower-case, and every entry holds at least one
well-formed value. -/
def wfHeaderMap (hm : HeaderMap) : Prop :=
  List.Pairwise (fun e1 e2 => e1.1 ≠ e2.1) hm ∧
  ∀ e ∈ hm, wfStoredName e.1 ∧ e.2 ≠ [] ∧ ∀ v ∈ e.2, wfValue v

instance (hm : HeaderMap) : Decidable (wfHeaderMap hm) := by
  unfold wfHeaderMap
  infer_instance

/-- The wire bytes `parse_into_response` consumes for a response head with
status line `HTTP/1.1 200 OK`, header pairs `hs` and remaining stream
`tail`. -/
def mkRespStream (hs : List (List Nat × List Nat)) (tail : List Nat) : List Nat :=
  strBytes ("HTTP/1.1 200 OK") ++ [13, 10] ++ headerLinesBytes hs ++ [13, 10] ++ tail

/-- 17 distinct single-valued headers used to exercise the header limit. -/
def hdrs17 : List (List Nat × List Nat) :=
  [(strBytes ("h01"), strBytes ("x")), (strBytes ("h02"), strBytes ("x")),
   (strBytes ("h03"), strBytes ("x")), (strBytes ("h04"), strBytes ("x")),
   (strBytes ("h05"), strBytes ("x")), (strBytes ("h06"), strBytes ("x")),
   (strBytes ("h07"), strBytes ("x")), (strBytes ("h08"), strBytes ("x")),
   (strBytes ("h09"), strBytes ("x")), (strBytes ("h10"), strBytes ("x")),
   (strBytes ("h11"), strBytes ("x")), (strBytes ("h12"), strBytes ("x")),
   (strBytes ("h13"), strBytes ("x")), (strBytes ("h14"), strBytes ("x")),
   (strBytes ("h15"), strBytes ("x")), (strBytes ("h16"), strBytes ("x")),
   (strBytes ("h17"), strBytes ("x"))]

/-- A request with a body, a matching content-length header, and 17 header
entries in total: one over the parser's 16-slot limit. -/
def cReq17 : Request :=
  Request.mk (strBytes ("GET")) (strBytes ("/")) .http11
    ((hdrs17.take 16).map (fun h => (h.1, [h.2])) ++ [(clName, [strBytes ("5")])])
    (strBytes ("hello"))

/-- A small round-trippable request used to instantiate the round-trip
theorem. -/
def cReqW : Request :=
  Request.mk (strBytes ("GET")) (strBytes ("/")) .http11 [(clName, [strBytes ("5")])]
    (strBytes ("hello"))

example : read_head (strBytes ("GET / HTTP/1.1\r\na: b\r\n\r\nBODY")) =
    (strBytes ("GET / HTTP/1.1\r\na: b\r\n\r\n"), strBytes ("BODY")) := by decide

example : read_head (strBytes ("\r\nabc")) = (strBytes ("\r\nabc"), []) := by decide

example : parse_into_request (strBytes ("GET / HTTP/1.1\r\ncontent-length: 11\r\n\r\nHello world")) =
    .ok (Request.mk (strBytes ("GET")) (strBytes ("/")) .http11
      [(clName, [strBytes ("11")])] (strBytes ("Hello world"))) := by decide

example : (respond (Response.mk 200 .http11 [] (strBytes ("hello me")))).2 =
    strBytes ("HTTP/1.1 200 OK\r\ncontent-length: 8\r\n\r\nhello me") := by decide

example : parse_into_response (strBytes ("HTTP/1.1 200 OK\r\ncontent-length: 12\r\n\r\nHello, world")) =
    .ok (Response.mk 200 .http11 [(clName, [strBytes ("12")])] (strBytes ("Hello, world"))) := by
  decide

example : (parse_into_request (strBytes ("GET / HTTP/1.1\r\na: 1\r\nb: 2\r\na: 3\r\n\r\n"))).map
    (fun r => flattenHeaders r.headers) =
    .ok [(strBytes ("a"), strBytes ("1")), (strBytes ("a"), strBytes ("3")),
         (strBytes ("b"), strBytes ("2"))] := by decide

example : parse_into_request (strBytes ("GET /< HTTP/1.1\r\nhost: x\r\n\r\n")) =
    .error (.BodyWritingError invalidUriMsg) := by decide

example : (parse_into_request (strBytes ("GET / HTTP/1.1\r\nContent-Length: 5\r\n\r\nhello"))).map
    (fun r => r.body) = .ok [] := by decide

lemma tokenByte_range {b : Nat} (h : tokenByte b = true) : 33 ≤ b ∧ b ≤ 126 ∧ b ≠ 58 := by
  unfold tokenByte at h
  simp at h
  casesm* _ ∨ _ <;> omega

lemma tokenByte_ne {b : Nat} (h : tokenByte b = true) :
    b ≠ 13 ∧ b ≠ 10 ∧ b ≠ 32 ∧ b ≠ 58 := by
  have := tokenByte_range h
  omega

lemma uriByte_ne {b : Nat} (h : uriByte b = true) : b ≠ 13 ∧ b ≠ 10 ∧ b ≠ 32 := by
  unfold uriByte at h
  simp at h
  omega

lemma valueByte_ne {b : Nat} (h : valueByte b = true) : b ≠ 13 ∧ b ≠ 10 := by
  unfold valueByte at h
  simp at h
  casesm* _ ∨ _ <;> omega

lemma lcTokenByte_token {b : Nat} (h : lcTokenByte b = true) : tokenByte b = true := by
  unfold lcTokenByte at h
  simp at h
  exact h.1

lemma lcTokenByte_lower {b : Nat} (h : lcTokenByte b = true) : lowerByte b = b := by
  unfold lcTokenByte at h
  simp at h
  unfold lowerByte
  rw [if_neg]
  simp only [Bool.and_eq_true, decide_eq_true_eq, not_and]
  intro h65
  omega

lemma lowerName_id {n : List Nat} (h : ∀ b ∈ n, lcTokenByte b = true) : lowerName n = n := by
  unfold lowerName
  induction n with
  | nil => rfl
  | cons a as ih =>
    simp only [List.map_cons, List.cons.injEq]
    exact ⟨lcTokenByte_lower (h a (List.mem_cons_self a as)),
      ih (fun b hb => h b (List.mem_cons_of_mem _ hb))⟩

lemma takeWhile_exact {p : Nat → Bool} {xs : List Nat} {y : Nat} {ys : List Nat}
    (hx : ∀ b ∈ xs, p b = true) (hy : p y = false) :
    (xs ++ y :: ys).takeWhile p = xs ∧ (xs ++ y :: ys).dropWhile p = y :: ys := by
  induction xs with
  | nil => simp [List.takeWhile_cons, List.dropWhile_cons, hy]
  | cons a as ih =>
    have ha := hx a (List.mem_cons_self a as)
    have h2 := ih (fun b hb => hx b (List.mem_cons_of_mem _ hb))
    simp only [List.cons_append, List.takeWhile_cons, List.dropWhile_cons, ha, if_true]
    simp [h2.1, h2.2]

lemma dropWhile_head_id {p : Nat → Bool} {r : List Nat}
    (h : ∀ b, r.head? = some b → p b = false) : r.dropWhile p = r := by
  cases r with
  | nil => rfl
  | cons a as => simp [List.dropWhile_cons, h a rfl]

lemma trimTrailing_id {v : List Nat}
    (h : ∀ b, v.getLast? = some b → blankByte b = false) : trimTrailing v = v := by
  unfold trimTrailing
  rw [dropWhile_head_id, List.reverse_reverse]
  intro b hb
  exact h b (by rwa [List.head?_reverse] at hb)

lemma readUntil_nil (d : Nat) : readUntil d [] = ([], []) := rfl

lemma readUntil_cons (d b : Nat) (rest : List Nat) :
    readUntil d (b :: rest) =
      if b = d then ([b], rest) else (b :: (readUntil d rest).1, (readUntil d rest).2) := rfl

lemma readUntil_split (d : Nat) (s : List Nat) :
    (readUntil d s).1 ++ (readUntil d s).2 = s := by
  induction s with
  | nil => rfl
  | cons b rest ih =>
    rw [readUntil_cons]
    by_cases h : b = d
    · simp [h]
    · simp only [if_neg h, List.cons_append, ih]

lemma readUntil_line {xs rest : List Nat} (hx : 10 ∉ xs) :
    readUntil 10 (xs ++ 10 :: rest) = (xs ++ [10], rest) := by
  induction xs with
  | nil => simp [readUntil_cons]
  | cons a as ih =>
    have ha : ¬(a = 10) := fun h => hx (h ▸ List.mem_cons_self a as)
    rw [List.cons_append, readUntil_cons, if_neg ha,
      ih (fun h => hx (List.mem_cons_of_mem _ h))]
    simp

lemma readUntil_all {xs : List Nat} (hx : 10 ∉ xs) : readUntil 10 xs = (xs, []) := by
  induction xs with
  | nil => rfl
  | cons a as ih =>
    have ha : ¬(a = 10) := fun h => hx (h ▸ List.mem_cons_self a as)
    rw [readUntil_cons, if_neg ha, ih (fun h => hx (List.mem_cons_of_mem _ h))]

lemma readUntil_fst_nil {d : Nat} {s : List Nat} (h : (readUntil d s).1 = []) : s = [] := by
  cases s with
  | nil => rfl
  | cons b rest =>
    rw [readUntil_cons] at h
    by_cases hb : b = d <;> simp [hb] at h

lemma readUntil_lengths (d : Nat) (s : List Nat) :
    (readUntil d s).1.length + (readUntil d s).2.length = s.length := by
  have := congrArg List.length (readUntil_split d s)
  simpa using this

lemma head_loop_succ (f : Nat) (buff s : List Nat) :
    head_loop (f + 1) buff s =
      if (readUntil 10 s).1 = [13, 10] ∨ (readUntil 10 s).1 = [] then
        (buff ++ (readUntil 10 s).1, (readUntil 10 s).2)
      else head_loop f (buff ++ (readUntil 10 s).1) (readUntil 10 s).2 := rfl

lemma read_head_eq (s : List Nat) :
    read_head s =
      if (readUntil 10 s).1 = [] then ((readUntil 10 s).1, (readUntil 10 s).2)
      else head_loop s.length (readUntil 10 s).1 (readUntil 10 s).2 := rfl

lemma head_loop_split : ∀ (fuel : Nat) (buff s : List Nat),
    (head_loop fuel buff s).1 ++ (head_loop fuel buff s).2 = buff ++ s := by
  intro fuel
  induction fuel with
  | zero => intro buff s; rfl
  | succ f ih =>
    intro buff s
    rw [head_loop_succ]
    by_cases h : (readUntil 10 s).1 = [13, 10] ∨ (readUntil 10 s).1 = []
    · rw [if_pos h]
      simp only [List.append_assoc, readUntil_split]
    · rw [if_neg h, ih]
      simp only [List.append_assoc, readUntil_split]

lemma head_loop_rest : ∀ (fuel : Nat) (buff s : List Nat), s.length + 1 ≤ fuel →
    (head_loop fuel buff s).2 ≠ [] →
    ∃ p, (head_loop fuel buff s).1 = buff ++ p ++ [13, 10] := by
  intro fuel
  induction fuel with
  | zero => intro buff s hf; omega
  | succ f ih =>
    intro buff s hf hr
    rw [head_loop_succ] at hr ⊢
    by_cases hcase : (readUntil 10 s).1 = [13, 10] ∨ (readUntil 10 s).1 = []
    · rw [if_pos hcase] at hr ⊢
      rcases hcase with hterm | hnil
      · exact ⟨[], by simp [hterm]⟩
      · exfalso
        have hs := readUntil_fst_nil hnil
        subst hs
        exact hr rfl
    · rw [if_neg hcase] at hr ⊢
      push_neg at hcase
      have hlen := readUntil_lengths 10 s
      have h1 : 1 ≤ (readUntil 10 s).1.length := by
        cases hc : (readUntil 10 s).1 with
        | nil => exact absurd hc hcase.2
        | cons x xs => simp
      have hf2 : (readUntil 10 s).2.length + 1 ≤ f := by omega
      rcases ih (buff ++ (readUntil 10 s).1) (readUntil 10 s).2 hf2 hr with ⟨p, hp⟩
      exact ⟨(readUntil 10 s).1 ++ p, by rw [hp]; simp [List.append_assoc]⟩

lemma read_head_split (s : List Nat) : (read_head s).1 ++ (read_head s).2 = s := by
  rw [read_head_eq]
  by_cases h : (readUntil 10 s).1 = []
  · rw [if_pos h]
    exact readUntil_split 10 s
  · rw [if_neg h, head_loop_split]
    exact readUntil_split 10 s

lemma read_head_rest {s : List Nat} (h : (read_head s).2 ≠ []) :
    ∃ p, (read_head s).1 = p ++ [13, 10] ∧ p ≠ [] := by
  rw [read_head_eq] at h ⊢
  by_cases hnil : (readUntil 10 s).1 = []
  · rw [if_pos hnil] at h
    exfalso
    have := readUntil_fst_nil hnil
    subst this
    exact h rfl
  · rw [if_neg hnil] at h ⊢
    have hlen := readUntil_lengths 10 s
    have h1 : 1 ≤ (readUntil 10 s).1.length := by
      cases hc : (readUntil 10 s).1 with
      | nil => exact absurd hc hnil
      | cons x xs => simp
    have hf : (readUntil 10 s).2.length + 1 ≤ s.length := by omega
    rcases head_loop_rest s.length (readUntil 10 s).1 (readUntil 10 s).2 hf h with ⟨p, hp⟩
    refine ⟨(readUntil 10 s).1 ++ p, by rw [hp], ?_⟩
    intro hc
    exact hnil (List.append_eq_nil.mp hc).1

lemma head_loop_term {mid : List Nat} (hm : NTLines mid) :
    ∀ (fuel : Nat) (buff r : List Nat), mid.length + 1 ≤ fuel →
    head_loop fuel buff (mid ++ 13 :: 10 :: r) = (buff ++ mid ++ [13, 10], r) := by
  induction hm with
  | nil =>
    intro fuel buff r hf
    cases fuel with
    | zero => omega
    | succ f =>
      rw [head_loop_succ]
      simp only [List.nil_append]
      have hread : readUntil 10 (13 :: 10 :: r) = ([13, 10], r) := by
        simpa using @readUntil_line [13] r (by simp)
      rw [hread]
      simp
  | cons xs rest hx hxs hrest ih =>
    intro fuel buff r hf
    cases fuel with
    | zero => simp [List.length_append] at hf
    | succ f =>
      have hshape : (xs ++ [10] ++ rest) ++ 13 :: 10 :: r = xs ++ 10 :: (rest ++ 13 :: 10 :: r) := by
        simp
      have hread := @readUntil_line xs (rest ++ 13 :: 10 :: r) hx
      rw [head_loop_succ, hshape, hread]
      have hne : ¬(xs ++ [10] = [13, 10] ∨ xs ++ [10] = ([] : List Nat)) := by
        rintro (hc | hc)
        · apply hxs
          have h2 := congrArg List.dropLast hc
          rw [List.dropLast_concat] at h2
          simpa using h2
        · simp at hc
      rw [if_neg hne]
      have hf2 : rest.length + 1 ≤ f := by
        simp [List.length_append] at hf
        omega
      rw [ih f (buff ++ (xs ++ [10])) r hf2]
      simp

lemma read_head_term {x0 mid r : List Nat} (hx : 10 ∉ x0) (hm : NTLines mid) :
    read_head (x0 ++ [10] ++ mid ++ 13 :: 10 :: r) = (x0 ++ [10] ++ mid ++ [13, 10], r) := by
  have hshape : x0 ++ [10] ++ mid ++ 13 :: 10 :: r = x0 ++ 10 :: (mid ++ 13 :: 10 :: r) := by
    simp
  rw [read_head_eq, hshape, readUntil_line hx]
  rw [if_neg (by simp)]
  have hlen : mid.length + 1 ≤ (x0 ++ 10 :: (mid ++ 13 :: 10 :: r)).length := by
    simp [List.length_append]
    omega
  rw [head_loop_term hm _ _ _ hlen]

lemma headerLines_NTLines {hs : List (List Nat × List Nat)} (h : wfPairs hs) :
    NTLines (headerLinesBytes hs) := by
  induction hs with
  | nil => exact NTLines.nil
  | cons p t ih =>
    have hp := h p (List.mem_cons_self p t)
    have ht : wfPairs t := fun q hq => h q (List.mem_cons_of_mem _ hq)
    have hshape : headerLinesBytes (p :: t) =
        (p.1 ++ [58, 32] ++ p.2 ++ [13]) ++ [10] ++ headerLinesBytes t := by
      unfold headerLinesBytes
      simp [List.append_assoc]
    rw [hshape]
    refine NTLines.cons _ _ ?_ ?_ (ih ht)
    · intro hc
      simp at hc
      rcases hc with hc | hc
      · exact absurd rfl (tokenByte_ne (hp.1.2 10 hc)).2.1
      · exact absurd rfl (valueByte_ne (hp.2.1 10 hc)).2
    · intro hc
      have := congrArg List.length hc
      simp [List.length_append] at this
      omega

lemma matchLit_hit (lit rest : List Nat) : matchLit lit (lit ++ rest) = .hit rest := by
  induction lit with
  | nil => rfl
  | cons a as ih => simp [matchLit, ih]

lemma skipEmptyLines_noskip {a : Nat} (tl : List Nat) (h13 : a ≠ 13) (h10 : a ≠ 10) :
    skipEmptyLines (a :: tl) = .ok (some (a :: tl)) := by
  unfold skipEmptyLines
  rw [if_neg h13, if_neg h10]

lemma h11_decomp (rest : List Nat) :
    strBytes ("HTTP/1.1") ++ rest = strBytes ("HTTP/1.") ++ 49 :: rest := rfl

lemma hpReqEnd_exact (m u rest : List Nat) :
    hpReqEnd m u (13 :: 10 :: rest) = .ok (.rlDone m u rest) := rfl

lemma hpReqVersion_exact (m u rest : List Nat) :
    hpReqVersion m u (strBytes ("HTTP/1.1") ++ 13 :: 10 :: rest) = .ok (.rlDone m u rest) := by
  unfold hpReqVersion
  rw [h11_decomp, matchLit_hit]
  rfl

lemma hpReqUri_exact {u : List Nat} (m r3 : List Nat) (hu : wfUri u) :
    hpReqUri m (u ++ 32 :: r3) = hpReqVersion m u r3 := by
  have h2 := @takeWhile_exact uriByte u 32 r3 hu.2 (by decide)
  unfold hpReqUri
  rw [h2.1, h2.2]
  simp [hu.1]

lemma hpRequestLine_split {m : List Nat} (r2 : List Nat) (hm : wfMethod m) :
    hpRequestLine (m ++ 32 :: r2) = hpReqUri m r2 := by
  have ht := @takeWhile_exact tokenByte m 32 r2 hm.2 (by decide)
  unfold hpRequestLine
  rw [ht.1, ht.2]
  simp [hm.1]

lemma hpRequestLine_exact {m u : List Nat} (rest : List Nat)
    (hm : wfMethod m) (hu : wfUri u) :
    hpRequestLine (m ++ 32 :: (u ++ 32 :: (strBytes ("HTTP/1.1") ++ 13 :: 10 :: rest))) =
      .ok (.rlDone m u rest) := by
  rw [hpRequestLine_split _ hm, hpReqUri_exact _ _ hu, hpReqVersion_exact]

lemma hpHeaderLine_exact {nm v : List Nat} (rest : List Nat)
    (hn : wfName nm) (hv : wfValue v) :
    hpHeaderLine (nm ++ 58 :: 32 :: (v ++ 13 :: 10 :: rest)) = .hlDone nm v rest := by
  have ht := @takeWhile_exact tokenByte nm 58 (32 :: (v ++ 13 :: 10 :: rest)) hn.2 (by decide)
  have hblank : (32 :: (v ++ 13 :: 10 :: rest)).dropWhile blankByte = v ++ 13 :: 10 :: rest := by
    rw [List.dropWhile_cons]
    simp only [show blankByte 32 = true by decide, if_true]
    apply dropWhile_head_id
    intro b hb
    cases v with
    | nil =>
      simp at hb
      subst hb
      decide
    | cons a as =>
      simp at hb
      subst hb
      have ha := hv.2.1 a rfl
      exact ha
  have hval := @takeWhile_exact valueByte v 13 (10 :: rest) hv.1 (by decide)
  unfold hpHeaderLine
  rw [ht.1, ht.2]
  simp only [show ¬((58 : Nat) = 13) by decide, if_neg, show ¬((58 : Nat) = 10) by decide]
  simp only [show ((58 : Nat) = 58) = True by simp, if_true, hn.1, hblank, hval.1, hval.2]
  simp [hn.1, trimTrailing_id hv.2.2]

lemma headerLinesBytes_nil : headerLinesBytes [] = [] := rfl

lemma headerLinesBytes_cons (p : List Nat × List Nat) (t : List (List Nat × List Nat)) :
    headerLinesBytes (p :: t) =
      p.1 ++ 58 :: 32 :: (p.2 ++ 13 :: 10 :: headerLinesBytes t) := by
  unfold headerLinesBytes
  simp [List.append_assoc]

lemma hpHeadersLoop_cons (maxH f : Nat) (acc : List (List Nat × List Nat))
    (a : Nat) (tl : List Nat) :
    hpHeadersLoop maxH (f + 1) acc (a :: tl) =
      if a = 13 then
        match tl with
        | [] => .ok acc
        | b2 :: _ => if b2 = 10 then .ok acc else .error .newLine
      else if a = 10 then .ok acc
      else if acc.length = maxH then .error .tooManyHeaders
      else
        match hpHeaderLine (a :: tl) with
        | .hlMore => .ok acc
        | .hlErr e => .error e
        | .hlDone nm v r6 => hpHeadersLoop maxH f (acc ++ [(nm, v)]) r6 := rfl

lemma hpHeadersLoop_terminator (maxH f : Nat) (acc : List (List Nat × List Nat))
    (tail : List Nat) :
    hpHeadersLoop maxH (f + 1) acc (13 :: 10 :: tail) = .ok acc := by
  rw [hpHeadersLoop_cons]
  simp

lemma hpHeadersLoop_step_done (maxH f : Nat) (acc : List (List Nat × List Nat))
    {a : Nat} {tl nm v r6 : List Nat}
    (h13 : a ≠ 13) (h10 : a ≠ 10) (hline : hpHeaderLine (a :: tl) = .hlDone nm v r6) :
    hpHeadersLoop maxH (f + 1) acc (a :: tl) =
      if acc.length = maxH then .error .tooManyHeaders
      else hpHeadersLoop maxH f (acc ++ [(nm, v)]) r6 := by
  rw [hpHeadersLoop_cons, if_neg h13, if_neg h10, hline]

lemma hpHeadersLoop_build {hs : List (List Nat × List Nat)} (hwf : wfPairs hs) :
    ∀ (fuel : Nat) (acc : List (List Nat × List Nat)) (tail : List Nat),
    (headerLinesBytes hs ++ 13 :: 10 :: tail).length ≤ fuel →
    acc.length ≤ 16 →
    hpHeadersLoop 16 fuel acc (headerLinesBytes hs ++ 13 :: 10 :: tail) =
      (if acc.length + hs.length ≤ 16 then .ok (acc ++ hs) else .error .tooManyHeaders) := by
  induction hs with
  | nil =>
    intro fuel acc tail hf hacc
    cases fuel with
    | zero => simp at hf
    | succ f =>
      rw [headerLinesBytes_nil, List.nil_append, hpHeadersLoop_terminator,
        if_pos (by simp only [List.length_nil]; omega)]
      simp
  | cons p t ih =>
    intro fuel acc tail hf hacc
    have hp := hwf p (List.mem_cons_self p t)
    have hwt : wfPairs t := fun q hq => hwf q (List.mem_cons_of_mem _ hq)
    cases fuel with
    | zero =>
      exfalso
      have h0 : 0 < (headerLinesBytes (p :: t) ++ 13 :: 10 :: tail).length := by simp
      omega
    | succ f =>
      obtain ⟨a, as, hp1⟩ : ∃ a as, p.1 = a :: as := by
        cases hc : p.1 with
        | nil => exact absurd hc hp.1.1
        | cons a as => exact ⟨a, as, rfl⟩
      have ha : tokenByte a = true :=
        hp.1.2 a (by rw [hp1]; exact List.mem_cons_self a as)
      have hcons : headerLinesBytes (p :: t) ++ 13 :: 10 :: tail =
          a :: (as ++ 58 :: 32 :: (p.2 ++ 13 :: 10 :: (headerLinesBytes t ++ 13 :: 10 :: tail))) := by
        rw [headerLinesBytes_cons, hp1]
        simp
      have hline : hpHeaderLine
          (a :: (as ++ 58 :: 32 :: (p.2 ++ 13 :: 10 :: (headerLinesBytes t ++ 13 :: 10 :: tail)))) =
          .hlDone p.1 p.2 (headerLinesBytes t ++ 13 :: 10 :: tail) := by
        have hl := @hpHeaderLine_exact p.1 p.2
          (headerLinesBytes t ++ 13 :: 10 :: tail) hp.1 hp.2
        have harg : p.1 ++ 58 :: 32 :: (p.2 ++ 13 :: 10 :: (headerLinesBytes t ++ 13 :: 10 :: tail)) =
            a :: (as ++ 58 :: 32 :: (p.2 ++ 13 :: 10 :: (headerLinesBytes t ++ 13 :: 10 :: tail))) := by
          rw [hp1]
          simp
        rw [harg] at hl
        exact hl
      rw [hcons, hpHeadersLoop_step_done 16 f acc (tokenByte_ne ha).1 (tokenByte_ne ha).2.1 hline]
      have hflen : (headerLinesBytes t ++ 13 :: 10 :: tail).length ≤ f := by
        have hcl := congrArg List.length hcons
        simp only [List.length_append, List.length_cons] at hcl hf ⊢
        omega
      by_cases hacc16 : acc.length = 16
      · rw [if_pos hacc16, if_neg (by simp only [List.length_cons]; omega)]
      · rw [if_neg hacc16,
          ih hwt f (acc ++ [(p.1, p.2)]) tail hflen (by simp only [List.length_append]; simp; omega)]
        by_cases hcond : acc.length + (p :: t).length ≤ 16
        · rw [if_pos (by simp only [List.length_append, List.length_cons] at hcond ⊢; simp; omega),
            if_pos hcond]
          simp
        · rw [if_neg (by simp only [List.length_append, List.length_cons] at hcond ⊢; simp; omega),
            if_neg hcond]

lemma exists_cons_of_ne_nil {α : Type} {l : List α} (h : l ≠ []) : ∃ a as, l = a :: as := by
  cases l with
  | nil => exact absurd rfl h
  | cons a as => exact ⟨a, as, rfl⟩

lemma httparseRequest_mk {m u : List Nat} {hs : List (List Nat × List Nat)}
    (hm : wfMethod m) (hu : wfUri u) (hw : wfPairs hs) :
    httparseRequest 16 (m ++ 32 :: (u ++ 32 :: (strBytes ("HTTP/1.1") ++ 13 :: 10 ::
      (headerLinesBytes hs ++ 13 :: 10 :: [])))) =
      (if hs.length ≤ 16 then .ok ⟨some m, some u, hs⟩ else .error .tooManyHeaders) := by
  obtain ⟨a, as, hma⟩ := exists_cons_of_ne_nil hm.1
  have ha : tokenByte a = true := hm.2 a (by rw [hma]; exact List.mem_cons_self a as)
  have hcons : m ++ 32 :: (u ++ 32 :: (strBytes ("HTTP/1.1") ++ 13 :: 10 ::
      (headerLinesBytes hs ++ 13 :: 10 :: []))) =
      a :: (as ++ 32 :: (u ++ 32 :: (strBytes ("HTTP/1.1") ++ 13 :: 10 ::
        (headerLinesBytes hs ++ 13 :: 10 :: [])))) := by
    rw [hma]
    simp
  unfold httparseRequest
  rw [hcons, skipEmptyLines_noskip _ (tokenByte_ne ha).1 (tokenByte_ne ha).2.1, ← hcons]
  show httparseReqLine 16 _ = _
  unfold httparseReqLine
  rw [hpRequestLine_exact _ hm hu]
  show httparseReqHeaders 16 m u (headerLinesBytes hs ++ 13 :: 10 :: []) = _
  unfold httparseReqHeaders
  rw [hpHeadersLoop_build hw _ [] [] le_rfl (by simp)]
  simp only [List.length_nil, List.nil_append, Nat.zero_add]
  by_cases hlen : hs.length ≤ 16
  · rw [if_pos hlen, if_pos hlen]
  · rw [if_neg hlen, if_neg hlen]

lemma read_head_mk {m u : List Nat} {hs : List (List Nat × List Nat)} (tail : List Nat)
    (hm : wfMethod m) (hu : wfUri u) (hw : wfPairs hs) :
    read_head (mkReqStream m u hs tail) =
      (m ++ 32 :: (u ++ 32 :: (strBytes ("HTTP/1.1") ++ 13 :: 10 ::
        (headerLinesBytes hs ++ 13 :: 10 :: []))), tail) := by
  have hx : 10 ∉ m ++ [32] ++ u ++ [32] ++ strBytes ("HTTP/1.1") ++ [13] := by
    intro hmem
    rcases List.mem_append.mp hmem with h5 | h5
    · rcases List.mem_append.mp h5 with h4 | h4
      · rcases List.mem_append.mp h4 with h3 | h3
        · rcases List.mem_append.mp h3 with h2 | h2
          · rcases List.mem_append.mp h2 with h1 | h1
            · exact (tokenByte_ne (hm.2 10 h1)).2.1 rfl
            · simp at h1
          · exact (uriByte_ne (hu.2 10 h2)).2.1 rfl
        · simp at h3
      · exact absurd h4 (by decide)
    · simp at h5
  have hshape : mkReqStream m u hs tail =
      (m ++ [32] ++ u ++ [32] ++ strBytes ("HTTP/1.1") ++ [13]) ++ [10] ++
        headerLinesBytes hs ++ 13 :: 10 :: tail := by
    unfold mkReqStream
    simp [List.append_assoc]
  rw [hshape, read_head_term hx (headerLines_NTLines hw)]
  simp [List.append_assoc]

lemma parse_into_request_mk {m u : List Nat} {hs : List (List Nat × List Nat)}
    (tail : List Nat) (hm : wfMethod m) (hu : wfUri u) (hw : wfPairs hs) :
    parse_into_request (mkReqStream m u hs tail) =
      (if hs.length ≤ 16 then requestOfHead ⟨some m, some u, hs⟩ tail
       else .error (.ParsingError (hpErrMsg .tooManyHeaders))) := by
  unfold parse_into_request
  simp only [read_head_mk tail hm hu hw, httparseRequest_mk hm hu hw]
  by_cases hlen : hs.length ≤ 16
  · rw [if_pos hlen, if_pos hlen]
  · rw [if_neg hlen, if_neg hlen]

lemma requestOfHead_clerr {hr : HReq} {rest : List Nat} {e : String}
    (h : bodyLength hr.headers = .error e) :
    requestOfHead hr rest = .error (.ContentLengthParsingError e) := by
  unfold requestOfHead
  rw [h]

lemma requestOfHead_cllen {hr : HReq} {rest : List Nat} {n : Nat}
    (h : bodyLength hr.headers = .ok n) :
    requestOfHead hr rest = requestOfParts hr n rest := by
  unfold requestOfHead
  rw [h]

lemma requestOfParts_short {hr : HReq} {n : Nat} {rest : List Nat}
    (h : rest.length < n) :
    requestOfParts hr n rest = .error (.IOError ioEofMsg) := by
  unfold requestOfParts readExact
  rw [if_pos h]

lemma responseOfHead_clerr {hr : HResp} {rest : List Nat} {e : String}
    (h : bodyLength hr.headers = .error e) :
    responseOfHead hr rest = .error (.ContentLengthParsingError e) := by
  unfold responseOfHead
  rw [h]

lemma responseOfHead_cllen {hr : HResp} {rest : List Nat} {n : Nat}
    (h : bodyLength hr.headers = .ok n) :
    responseOfHead hr rest = responseOfParts hr n rest := by
  unfold responseOfHead
  rw [h]

lemma responseOfParts_short {hr : HResp} {n : Nat} {rest : List Nat}
    (h : rest.length < n) :
    responseOfParts hr n rest = .error (.IOError ioEofMsg) := by
  unfold responseOfParts readExact
  rw [if_pos h]

lemma checkName_of_wf {n : List Nat} (h : wfName n) : checkName n = true := by
  unfold checkName
  cases hn : n with
  | nil => exact absurd hn h.1
  | cons a as =>
    simp only [List.isEmpty_cons, Bool.not_false, Bool.true_and, List.all_eq_true]
    intro b hb
    exact h.2 b (hn ▸ hb)

lemma checkValue_of_wf {v : List Nat} (h : wfValue v) : checkValue v = true := by
  unfold checkValue
  simp only [List.all_eq_true]
  exact fun b hb => h.1 b hb

lemma buildFold_cons_ok {hm2 : HeaderMap} {p : List Nat × List Nat}
    {ps : List (List Nat × List Nat)} (hn : checkName p.1 = true) (hv : checkValue p.2 = true) :
    buildFold hm2 (p :: ps) = buildFold (hmAppend hm2 (lowerName p.1) p.2) ps := by
  cases p with
  | mk a b =>
    simp only [buildFold]
    simp only at hn hv
    rw [if_pos hn, if_pos hv]

lemma buildFold_ok_exists {hs : List (List Nat × List Nat)} (hw : wfPairs hs) :
    ∀ acc : HeaderMap, ∃ hm2, buildFold acc hs = .ok hm2 := by
  induction hs with
  | nil => exact fun acc => ⟨acc, rfl⟩
  | cons p t ih =>
    intro acc
    have hp := hw p (List.mem_cons_self p t)
    rw [buildFold_cons_ok (checkName_of_wf hp.1) (checkValue_of_wf hp.2)]
    exact ih (fun q hq => hw q (List.mem_cons_of_mem _ hq)) _

example : parseUsize (strBytes ("+5")) = .ok 5 := by decide

example : parseUsize (strBytes ("0")) = .ok 0 := by decide

example : parseUsize (strBytes ("-5")) = .error invalidDigitMsg := by decide

example : parseUsize [] = .error emptyIntMsg := by decide

example : parseUsize (strBytes ("1x2")) = .error invalidDigitMsg := by decide

lemma decDigits_spec : ∀ (f n : Nat), n < f →
    (∀ b ∈ decDigits f n, digitByte b = true) ∧ decDigits f n ≠ [] ∧
    (decDigits f n).foldl (fun a b => a * 10 + (b - 48)) 0 = n := by
  intro f
  induction f with
  | zero => intro n h; omega
  | succ f ih =>
    intro n h
    by_cases h10 : n < 10
    · simp only [decDigits, if_pos h10]
      refine ⟨?_, by simp, ?_⟩
      · intro b hb
        simp at hb
        subst hb
        unfold digitByte
        simp
        omega
      · simp only [List.foldl_cons, List.foldl_nil]
        omega
    · have hn10 : n / 10 < f := by omega
      simp only [decDigits, if_neg h10]
      obtain ⟨ha, hne, hfold⟩ := ih (n / 10) hn10
      refine ⟨?_, by simp [hne], ?_⟩
      · intro b hb
        rcases List.mem_append.mp hb with hb | hb
        · exact ha b hb
        · simp at hb
          subst hb
          unfold digitByte
          simp
          omega
      · rw [List.foldl_append, hfold]
        simp only [List.foldl_cons, List.foldl_nil]
        omega

lemma parseUsize_decimal {n : Nat} (h : n < 2 ^ 64) : parseUsize (decimalBytes n) = .ok n := by
  have hd := decDigits_spec (n + 1) n (by omega)
  have hhead : ¬((decDigits (n + 1) n).head? = some 43) := by
    cases hc : decDigits (n + 1) n with
    | nil => simp
    | cons a as =>
      simp only [List.head?_cons, Option.some.injEq]
      intro hcon
      have hdig := hd.1 a (hc ▸ List.mem_cons_self a as)
      unfold digitByte at hdig
      simp at hdig
      omega
  have hall : (decDigits (n + 1) n).all digitByte = true := by
    rw [List.all_eq_true]
    exact fun b hb => hd.1 b hb
  unfold parseUsize decimalBytes
  rw [if_neg hhead]
  unfold parseUsizeDigits
  rw [if_neg hd.2.1, if_pos hall, hd.2.2, if_pos h]

lemma wfStoredName_wfName {n : List Nat} (h : wfStoredName n) : wfName n :=
  ⟨h.1, fun b hb => lcTokenByte_token (h.2 b hb)⟩

lemma hmAppend_new {hm : HeaderMap} {n : List Nat} (h : ∀ e ∈ hm, e.1 ≠ n) (v : List Nat) :
    hmAppend hm n v = hm ++ [(n, [v])] := by
  induction hm with
  | nil => rfl
  | cons e rest ih =>
    simp only [hmAppend]
    rw [if_neg (h e (List.mem_cons_self e rest)), ih (fun q hq => h q (List.mem_cons_of_mem _ hq))]
    simp

lemma hmAppend_found {done rest : HeaderMap} {n : List Nat} {vs0 : List (List Nat)}
    (h : ∀ e ∈ done, e.1 ≠ n) (v : List Nat) :
    hmAppend (done ++ (n, vs0) :: rest) n v = done ++ (n, vs0 ++ [v]) :: rest := by
  induction done with
  | nil => simp [hmAppend]
  | cons e d ih =>
    simp only [List.cons_append, hmAppend, List.append_eq]
    rw [if_neg (h e (List.mem_cons_self e d)), ih (fun q hq => h q (List.mem_cons_of_mem _ hq))]

lemma flattenHeaders_cons (n : List Nat) (vs : List (List Nat)) (rest : HeaderMap) :
    flattenHeaders ((n, vs) :: rest) =
      vs.map (fun v => (n, v)) ++ flattenHeaders rest := by
  unfold flattenHeaders
  simp

lemma wfPairs_flatten {hm : HeaderMap} (h : wfHeaderMap hm) : wfPairs (flattenHeaders hm) := by
  intro p hp
  unfold flattenHeaders at hp
  simp only [List.mem_bind, List.mem_map] at hp
  obtain ⟨e, he, v, hv, hpv⟩ := hp
  have h2 := h.2 e he
  subst hpv
  exact ⟨wfStoredName_wfName h2.1, h2.2.2 v hv⟩

lemma buildFold_values {n : List Nat} (hn : wfStoredName n) :
    ∀ (vs : List (List Nat)) (done : HeaderMap) (vs0 : List (List Nat))
      (ps : List (List Nat × List Nat)),
    (∀ e ∈ done, e.1 ≠ n) → (∀ v ∈ vs, wfValue v) →
    buildFold (done ++ [(n, vs0)]) (vs.map (fun v => (n, v)) ++ ps) =
      buildFold (done ++ [(n, vs0 ++ vs)]) ps := by
  intro vs
  induction vs with
  | nil =>
    intro done vs0 ps hd hv
    simp
  | cons v vt ih =>
    intro done vs0 ps hd hv
    simp only [List.map_cons, List.cons_append]
    rw [buildFold_cons_ok (checkName_of_wf (wfStoredName_wfName hn))
      (checkValue_of_wf (hv v (List.mem_cons_self v vt)))]
    simp only
    rw [lowerName_id hn.2, @hmAppend_found done ([] : HeaderMap) n vs0 hd v,
      ih done (vs0 ++ [v]) ps hd (fun w hw => hv w (List.mem_cons_of_mem _ hw))]
    simp [List.append_assoc]

lemma buildFold_replay_aux : ∀ {hm : HeaderMap}, wfHeaderMap hm →
    ∀ acc : HeaderMap, (∀ e ∈ acc, ∀ e2 ∈ hm, e.1 ≠ e2.1) →
    buildFold acc (flattenHeaders hm) = .ok (acc ++ hm) := by
  intro hm
  induction hm with
  | nil =>
    intro _ acc _
    simp [flattenHeaders, buildFold]
  | cons e rest ih =>
    intro h acc hd
    obtain ⟨n, vs⟩ := e
    have he := h.2 (n, vs) (List.mem_cons_self _ rest)
    obtain ⟨v0, vt, hvs⟩ := exists_cons_of_ne_nil he.2.1
    subst hvs
    rw [flattenHeaders_cons]
    simp only [List.map_cons, List.cons_append]
    rw [buildFold_cons_ok (checkName_of_wf (wfStoredName_wfName he.1))
      (checkValue_of_wf (he.2.2 v0 (List.mem_cons_self v0 vt)))]
    simp only
    have hdn : ∀ q ∈ acc, q.1 ≠ n := fun q hq =>
      hd q hq (n, v0 :: vt) (List.mem_cons_self _ rest)
    rw [lowerName_id he.1.2, hmAppend_new hdn v0,
      buildFold_values he.1 vt acc [v0] (flattenHeaders rest) hdn
        (fun w hw => he.2.2 w (List.mem_cons_of_mem _ hw))]
    have hrest : wfHeaderMap rest :=
      ⟨(List.pairwise_cons.mp h.1).2, fun q hq => h.2 q (List.mem_cons_of_mem _ hq)⟩
    have hd2 : ∀ q ∈ acc ++ [(n, ([v0] ++ vt : List (List Nat)))], ∀ e2 ∈ rest, q.1 ≠ e2.1 := by
      intro q hq e2 he2
      rcases List.mem_append.mp hq with hq | hq
      · exact hd q hq e2 (List.mem_cons_of_mem _ he2)
      · simp at hq
        subst hq
        exact (List.pairwise_cons.mp h.1).1 e2 he2
    rw [ih hrest (acc ++ [(n, [v0] ++ vt)]) hd2]
    simp [List.append_assoc]

lemma buildFold_replay {hm : HeaderMap} (h : wfHeaderMap hm) :
    buildFold [] (flattenHeaders hm) = .ok hm := by
  have hr := buildFold_replay_aux h [] (by simp)
  simpa using hr

lemma hpStatusLine_200 (rest : List Nat) :
    hpStatusLine (strBytes ("HTTP/1.1 200 OK") ++ 13 :: 10 :: rest) = .ok (.slDone 200 rest) := by
  have hdec : strBytes ("HTTP/1.1 200 OK") ++ 13 :: 10 :: rest =
      strBytes ("HTTP/1.") ++ 49 :: 32 :: 50 :: 48 :: 48 :: 32 :: 79 :: 75 :: 13 :: 10 :: rest := rfl
  unfold hpStatusLine
  rw [hdec, matchLit_hit]
  rfl

lemma httparseResponse_mk {hs : List (List Nat × List Nat)} (hw : wfPairs hs) :
    httparseResponse 16
      (strBytes ("HTTP/1.1 200 OK") ++ 13 :: 10 :: (headerLinesBytes hs ++ 13 :: 10 :: [])) =
      (if hs.length ≤ 16 then .ok ⟨some 200, hs⟩ else .error .tooManyHeaders) := by
  have hcons : strBytes ("HTTP/1.1 200 OK") ++ 13 :: 10 :: (headerLinesBytes hs ++ 13 :: 10 :: []) =
      72 :: (strBytes ("TTP/1.1 200 OK") ++ 13 :: 10 :: (headerLinesBytes hs ++ 13 :: 10 :: [])) := rfl
  unfold httparseResponse
  rw [hcons, skipEmptyLines_noskip _ (by decide) (by decide), ← hcons]
  show httparseRespLine 16 _ = _
  unfold httparseRespLine
  rw [hpStatusLine_200]
  show httparseRespHeaders 16 200 (headerLinesBytes hs ++ 13 :: 10 :: []) = _
  unfold httparseRespHeaders
  rw [hpHeadersLoop_build hw _ [] [] le_rfl (by simp)]
  simp only [List.length_nil, List.nil_append, Nat.zero_add]
  by_cases hlen : hs.length ≤ 16
  · rw [if_pos hlen, if_pos hlen]
  · rw [if_neg hlen, if_neg hlen]

lemma read_head_mkResp {hs : List (List Nat × List Nat)} (tail : List Nat) (hw : wfPairs hs) :
    read_head (mkRespStream hs tail) =
      (strBytes ("HTTP/1.1 200 OK") ++ 13 :: 10 :: (headerLinesBytes hs ++ 13 :: 10 :: []), tail) := by
  have hx : 10 ∉ strBytes ("HTTP/1.1 200 OK") ++ [13] := by decide
  have hshape : mkRespStream hs tail =
      (strBytes ("HTTP/1.1 200 OK") ++ [13]) ++ [10] ++ headerLinesBytes hs ++ 13 :: 10 :: tail := by
    unfold mkRespStream
    simp [List.append_assoc]
  rw [hshape, read_head_term hx (headerLines_NTLines hw)]
  simp [List.append_assoc]

lemma parse_into_response_mk {hs : List (List Nat × List Nat)} (tail : List Nat)
    (hw : wfPairs hs) :
    parse_into_response (mkRespStream hs tail) =
      (if hs.length ≤ 16 then responseOfHead ⟨some 200, hs⟩ tail
       else .error (.ParsingError (hpErrMsg .tooManyHeaders))) := by
  unfold parse_into_response
  simp only [read_head_mkResp tail hw, httparseResponse_mk hw]
  by_cases hlen : hs.length ≤ 16
  · rw [if_pos hlen, if_pos hlen]
  · rw [if_neg hlen, if_neg hlen]

lemma hmInsert_absent {hm : HeaderMap} {n : List Nat} (h : ∀ e ∈ hm, e.1 ≠ n) (v : List Nat) :
    hmInsert hm n v = hm ++ [(n, [v])] := by
  induction hm with
  | nil => rfl
  | cons e rest ih =>
    simp only [hmInsert, List.cons_append]
    rw [if_neg (h e (List.mem_cons_self e rest)), ih (fun q hq => h q (List.mem_cons_of_mem _ hq))]

lemma httpUriByte_uriByte {b : Nat} (h : httpUriByte b = true) : uriByte b = true := by
  unfold httpUriByte at h
  unfold uriByte
  simp only [Bool.and_eq_true, decide_eq_true_eq] at h ⊢
  exact h.1

lemma wfHttpUri_wfUri {u : List Nat} (h : wfHttpUri u) : wfUri u := by
  obtain ⟨hhead, _, hall⟩ := h
  cases u with
  | nil => simp at hhead
  | cons a t =>
    exact ⟨by simp, fun b hb => httpUriByte_uriByte (hall b hb)⟩

lemma checkUri_of_wf {u : List Nat} (h : wfHttpUri u) : checkUri (some u) = true := by
  obtain ⟨hhead, _, hall⟩ := h
  cases u with
  | nil => simp at hhead
  | cons a t =>
    simp only [checkUri, List.isEmpty_cons, Bool.not_false, Bool.true_and, List.all_eq_true]
    exact fun b hb => hall b hb

lemma requestOfHead_body {hs : List (List Nat × List Nat)} (tail : List Nat) {n : Nat}
    (hw : wfPairs hs) (hb : bodyLength hs = .ok n) (hn : n ≤ tail.length)
    (mm pp : Option (List Nat)) (hcu : checkUri pp = true) :
    (requestOfHead ⟨mm, pp, hs⟩ tail).map (fun r => r.body) = .ok (tail.take n) := by
  rw [requestOfHead_cllen hb]
  unfold requestOfParts
  rw [show readExact n tail = .ok (tail.take n) by
    unfold readExact
    rw [if_neg (by omega)]]
  rw [show checkUri (HReq.mk mm pp hs).path = true from hcu]
  obtain ⟨hm2, hbf⟩ := buildFold_ok_exists hw ([] : HeaderMap)
  rw [show buildFold [] (HReq.mk mm pp hs).headers = .ok hm2 from hbf]
  rfl

lemma bodyLength_none {hs : List (List Nat × List Nat)}
    (h : ∀ p ∈ hs, p.1 ≠ clName) : bodyLength hs = .ok 0 := by
  unfold bodyLength
  rw [List.find?_eq_none.mpr (by
    intro p hp
    simp only [decide_eq_true_eq]
    exact h p hp)]

/-- C4: a head that declares a `content-length` larger than the bytes left
in the stream makes both `parse_into_request` and `parse_into_response`
fail with an I/O error; no truncated body is ever returned. -/
theorem claim4_truncation (m u : List Nat) (hs : List (List Nat × List Nat))
    (tail : List Nat) (pr : List Nat × List Nat) (n : Nat)
    (hm : wfMethod m) (hu : wfUri u) (hw : wfPairs hs) (hlen : hs.length ≤ 16)
    (hfind : hs.find? (fun h => decide (h.1 = clName)) = some pr)
    (hn : parseUsize pr.2 = .ok n) (hshort : tail.length < n) :
    parse_into_request (mkReqStream m u hs tail) = .error (.IOError ioEofMsg) ∧
    parse_into_response (mkRespStream hs tail) = .error (.IOError ioEofMsg) := by
  have hb : bodyLength hs = .ok n := by
    unfold bodyLength
    rw [hfind]
    exact hn
  constructor
  · rw [parse_into_request_mk tail hm hu hw, if_pos hlen, requestOfHead_cllen hb,
      requestOfParts_short hshort]
  · rw [parse_into_response_mk tail hw, if_pos hlen, responseOfHead_cllen hb,
      responseOfParts_short hshort]

theorem claim4_witness :
    parse_into_request (mkReqStream (strBytes ("GET")) (strBytes ("/"))
        [(clName, strBytes ("5"))] (strBytes ("ab"))) = .error (.IOError ioEofMsg) ∧
    parse_into_response (mkRespStream [(clName, strBytes ("5"))] (strBytes ("ab"))) =
      .error (.IOError ioEofMsg) :=
  claim4_truncation (strBytes ("GET")) (strBytes ("/")) [(clName, strBytes ("5"))]
    (strBytes ("ab")) (clName, strBytes ("5")) 5 (by decide) (by decide) (by decide)
    (by decide) (by decide) (by decide) (by decide)

/-- C5: a matched `content-length` header whose value does not parse as a
non-negative base-10 integer is a hard `ContentLengthParsingError` (never
defaulted to zero, and raised before the builder ever runs), and a head
with no matching `content-length` header whose target the `http` crate
accepts yields an empty body no matter what bytes follow the head. -/
theorem claim5_content_length (m u : List Nat) (hs : List (List Nat × List Nat))
    (tail : List Nat) (hm : wfMethod m) (hu : wfUri u) (hw : wfPairs hs)
    (hlen : hs.length ≤ 16) :
    (∀ pr e, hs.find? (fun h => decide (h.1 = clName)) = some pr →
      parseUsize pr.2 = .error e →
      parse_into_request (mkReqStream m u hs tail) =
        .error (.ContentLengthParsingError e)) ∧
    (wfHttpUri u → hs.find? (fun h => decide (h.1 = clName)) = none →
      (parse_into_request (mkReqStream m u hs tail)).map (fun r => r.body) = .ok []) := by
  constructor
  · intro pr e hfind he
    have hb : bodyLength hs = .error e := by
      unfold bodyLength
      rw [hfind]
      exact he
    rw [parse_into_request_mk tail hm hu hw, if_pos hlen, requestOfHead_clerr hb]
  · intro huh hfind
    have hb : bodyLength hs = .ok 0 := by
      unfold bodyLength
      rw [hfind]
    rw [parse_into_request_mk tail hm hu hw, if_pos hlen]
    have := requestOfHead_body tail hw hb (Nat.zero_le _) (some m) (some u) (checkUri_of_wf huh)
    simpa using this

theorem claim5_witness :
    parse_into_request (mkReqStream (strBytes ("GET")) (strBytes ("/"))
        [(clName, strBytes ("abc"))] []) =
      .error (.ContentLengthParsingError invalidDigitMsg) ∧
    (parse_into_request (mkReqStream (strBytes ("GET")) (strBytes ("/"))
        [(strBytes ("host"), strBytes ("x"))] (strBytes ("leftover")))).map
      (fun r => r.body) = .ok [] :=
  ⟨(claim5_content_length (strBytes ("GET")) (strBytes ("/")) [(clName, strBytes ("abc"))]
      [] (by decide) (by decide) (by decide) (by decide)).1
      (clName, strBytes ("abc")) invalidDigitMsg (by decide) (by decide),
   (claim5_content_length (strBytes ("GET")) (strBytes ("/"))
      [(strBytes ("host"), strBytes ("x"))] (strBytes ("leftover")) (by decide) (by decide)
      (by decide) (by decide)).2 (by decide) (by decide)⟩

/-- C6: a head with more than 16 header lines makes `parse_into_request`
fail with the parser's too-many-headers error; the headers are never
silently truncated to the first 16. -/
theorem claim6_header_limit (m u : List Nat) (hs : List (List Nat × List Nat))
    (tail : List Nat) (hm : wfMethod m) (hu : wfUri u) (hw : wfPairs hs)
    (hlen : 16 < hs.length) :
    parse_into_request (mkReqStream m u hs tail) =
      .error (.ParsingError (hpErrMsg .tooManyHeaders)) := by
  rw [parse_into_request_mk tail hm hu hw, if_neg (by omega)]

theorem claim6_witness :
    parse_into_request (mkReqStream (strBytes ("GET")) (strBytes ("/")) hdrs17 []) =
      .error (.ParsingError (hpErrMsg .tooManyHeaders)) :=
  claim6_header_limit (strBytes ("GET")) (strBytes ("/")) hdrs17 [] (by decide) (by decide)
    (by decide) (by decide)

/-- C3 counterexample: the head declares `Content-Length: 5` (capitalised)
followed by five body bytes, but the lookup in `parse_into_request` does
not match it, so the parsed body is empty rather than the five declared
bytes: the body-length lookup is not case-insensitive. -/
theorem claim3_counterexample :
    (parse_into_request (strBytes ("GET / HTTP/1.1
Content-Length: 5

hello"))).map
      (fun r => r.body) = .ok [] ∧ ([] : List Nat).length ≠ 5 := by decide

/-- C3 (amended): the body-length lookup in `parse_into_request` matches
header names case-sensitively against the exact bytes `content-length`:
the first such header's parsed value is the body length used, and when no
header name is byte-for-byte equal to `content-length` (even if a
differently-cased variant is present) the body length defaults to zero. -/
theorem claim3_lookup (m u : List Nat) (hs : List (List Nat × List Nat)) (tail : List Nat)
    (hm : wfMethod m) (hu : wfHttpUri u) (hw : wfPairs hs) (hlen : hs.length ≤ 16) :
    (∀ pr n, hs.find? (fun h => decide (h.1 = clName)) = some pr →
      parseUsize pr.2 = .ok n → n ≤ tail.length →
      (parse_into_request (mkReqStream m u hs tail)).map (fun r => r.body) =
        .ok (tail.take n)) ∧
    ((∀ p ∈ hs, p.1 ≠ clName) →
      (parse_into_request (mkReqStream m u hs tail)).map (fun r => r.body) = .ok []) := by
  constructor
  · intro pr n hfind hn hntail
    have hb : bodyLength hs = .ok n := by
      unfold bodyLength
      rw [hfind]
      exact hn
    rw [parse_into_request_mk tail hm (wfHttpUri_wfUri hu) hw, if_pos hlen]
    exact requestOfHead_body tail hw hb hntail (some m) (some u) (checkUri_of_wf hu)
  · intro hnone
    rw [parse_into_request_mk tail hm (wfHttpUri_wfUri hu) hw, if_pos hlen]
    have := requestOfHead_body tail hw (bodyLength_none hnone) (Nat.zero_le _) (some m) (some u)
      (checkUri_of_wf hu)
    simpa using this

theorem claim3_witness :
    (parse_into_request (mkReqStream (strBytes ("GET")) (strBytes ("/"))
        [(strBytes ("Content-Length"), strBytes ("5"))] (strBytes ("hello")))).map
      (fun r => r.body) = .ok [] :=
  (claim3_lookup (strBytes ("GET")) (strBytes ("/"))
    [(strBytes ("Content-Length"), strBytes ("5"))] (strBytes ("hello")) (by decide)
    (by decide) (by decide) (by decide)).2 (by decide)

/-- C8: serialising a response with status `200 OK`, no headers and the
8-byte body "hello me" for transmission writes exactly the bytes
`HTTP/1.1 200 OK\r\ncontent-length: 8\r\n\r\nhello me`. -/
theorem claim8_serialise :
    (respond (Response.mk 200 .http11 [] (strBytes ("hello me")))).2 =
      strBytes ("HTTP/1.1 200 OK\r\ncontent-length: 8\r\n\r\nhello me") := by decide

/-- C9 counterexample: on the stream `\r\nabc` the very first line read is
exactly `\r\n`, yet `read_head` does not stop there returning the
accumulated bytes up to that terminator (which would be `("\r\n", "abc")`):
the first line is never checked, so the whole stream is consumed. -/
theorem claim9_counterexample :
    read_head (strBytes ("\r\nabc")) = (strBytes ("\r\nabc"), []) ∧
    (strBytes ("\r\nabc"), ([] : List Nat)) ≠ (strBytes ("\r\n"), strBytes ("abc")) := by
  decide

/-- C9 (amended): `read_head` terminates on every finite stream and returns
exactly the bytes it consumed; whenever it stops with stream bytes left
unread, the last line read was the `\r\n` terminator, kept at the end of
the head; and the terminator is recognised from the second line onward:
after a first line `x0 ++ [10]` and complete non-terminator lines `mid`,
reading stops exactly at the following `\r\n`, consuming nothing more. -/
theorem claim9_read_head :
    (∀ s : List Nat, (read_head s).1 ++ (read_head s).2 = s) ∧
    (∀ s : List Nat, (read_head s).2 ≠ [] →
      ∃ p, (read_head s).1 = p ++ [13, 10] ∧ p ≠ []) ∧
    (∀ x0 mid r : List Nat, 10 ∉ x0 → NTLines mid →
      read_head (x0 ++ [10] ++ mid ++ 13 :: 10 :: r) =
        (x0 ++ [10] ++ mid ++ [13, 10], r)) :=
  ⟨read_head_split, fun _ h => read_head_rest h, fun _ _ _ hx hm => read_head_term hx hm⟩

theorem claim9_witness :
    read_head (strBytes ("GET / HTTP/1.1\r") ++ [10] ++
        (strBytes ("host: x\r") ++ [10] ++ []) ++ 13 :: 10 :: strBytes ("BODY")) =
      (strBytes ("GET / HTTP/1.1\r") ++ [10] ++ (strBytes ("host: x\r") ++ [10] ++ []) ++
        [13, 10], strBytes ("BODY")) :=
  claim9_read_head.2.2 (strBytes ("GET / HTTP/1.1\r")) (strBytes ("host: x\r") ++ [10] ++ [])
    (strBytes ("BODY")) (by decide)
    (NTLines.cons (strBytes ("host: x\r")) [] (by decide) (by decide) NTLines.nil)

lemma parse_into_response_inv {s : List Nat} {r : Response}
    (h : parse_into_response s = .ok r) :
    ∃ hr, httparseResponse 16 (read_head s).1 = .ok hr ∧
      responseOfHead hr (read_head s).2 = .ok r := by
  have h2 : (match httparseResponse 16 (read_head s).1 with
    | .error e => (.error (.ParsingError (hpErrMsg e)) : Except HttpRequestError Response)
    | .ok hr => responseOfHead hr (read_head s).2) = .ok r := h
  cases hh : httparseResponse 16 (read_head s).1 with
  | error e =>
    rw [hh] at h2
    exact Except.noConfusion h2
  | ok hr =>
    rw [hh] at h2
    exact ⟨hr, rfl, h2⟩

lemma responseOfHead_status {hr : HResp} {rest : List Nat} {r : Response}
    (h : responseOfHead hr rest = .ok r) : r.status = 200 := by
  unfold responseOfHead at h
  cases hb : bodyLength hr.headers with
  | error e =>
    rw [hb] at h
    exact Except.noConfusion h
  | ok n =>
    rw [hb] at h
    have h2 : responseOfParts hr n rest = .ok r := h
    unfold responseOfParts at h2
    cases hre : readExact n rest with
    | error e =>
      rw [hre] at h2
      exact Except.noConfusion h2
    | ok body =>
      rw [hre] at h2
      cases hbf : buildFold [] hr.headers with
      | error e =>
        rw [hbf] at h2
        exact Except.noConfusion h2
      | ok hm2 =>
        rw [hbf] at h2
        have h3 : (Except.ok (Response.mk 200 .http11 hm2 body) :
            Except HttpRequestError Response) = .ok r := h2
        injection h3 with h4
        rw [← h4]

/-- C10: every stream `parse_into_response` parses successfully yields a
response with status 200 (the builder default), whatever status code the
input's status line carried: the parsed code and reason are discarded. -/
theorem claim10_status (s : List Nat) (r : Response)
    (h : parse_into_response s = .ok r) : r.status = 200 := by
  obtain ⟨hr, _, h2⟩ := parse_into_response_inv h
  exact responseOfHead_status h2

theorem claim10_witness :
    parse_into_response (strBytes ("HTTP/1.1 404 Not Found\r\n\r\n")) =
      .ok (Response.mk 200 .http11 [] []) ∧
    (Response.mk 200 .http11 [] ([] : List Nat)).status = 200 :=
  ⟨by decide, claim10_status (strBytes ("HTTP/1.1 404 Not Found\r\n\r\n"))
    (Response.mk 200 .http11 [] []) (by decide)⟩

/-- C7: `respond` appends a `content-length` header holding the decimal byte
length of the body exactly when no stored header is named `content-length`
(stored names are lower-cased by `HeaderName`, so the check is effectively
case-insensitive); when such a header exists, whatever its value, the
response is left completely unchanged: no duplicate and no other header
added or removed. -/
theorem claim7_injection (r : Response) (hw : wfHeaderMap r.headers) :
    ((∀ e ∈ r.headers, e.1 ≠ clName) →
      (respond r).1 = Response.mk r.status r.version
        (r.headers ++ [(clName, [decimalBytes r.body.length])]) r.body) ∧
    ((∃ e ∈ r.headers, e.1 = clName) → (respond r).1 = r) := by
  constructor
  · intro hno
    have hany : (flattenHeaders r.headers).any (fun h => decide (h.1 = clName)) = false := by
      rw [List.any_eq_false]
      intro p hp
      unfold flattenHeaders at hp
      simp only [List.mem_bind, List.mem_map] at hp
      obtain ⟨e, he, v, _, hpv⟩ := hp
      simp only [decide_eq_true_eq]
      rw [← hpv]
      exact hno e he
    unfold respond
    rw [hany]
    simp only [Bool.false_eq_true, if_false]
    rw [hmInsert_absent hno]
  · intro hyes
    obtain ⟨e, he, hename⟩ := hyes
    have hvne : e.2 ≠ [] := (hw.2 e he).2.1
    obtain ⟨v0, vt, hv⟩ := exists_cons_of_ne_nil hvne
    have hany : (flattenHeaders r.headers).any (fun h => decide (h.1 = clName)) = true := by
      rw [List.any_eq_true]
      refine ⟨(e.1, v0), ?_, by simp [hename]⟩
      unfold flattenHeaders
      simp only [List.mem_bind, List.mem_map]
      exact ⟨e, he, v0, by rw [hv]; exact List.mem_cons_self v0 vt, rfl⟩
    unfold respond
    rw [hany]
    simp

theorem claim7_witness :
    (respond (Response.mk 200 .http11 [] (strBytes ("abc")))).1 =
      Response.mk 200 .http11 [(clName, [strBytes ("3")])] (strBytes ("abc")) ∧
    (respond (Response.mk 200 .http11 [(clName, [strBytes ("999")])] (strBytes ("abc")))).1 =
      Response.mk 200 .http11 [(clName, [strBytes ("999")])] (strBytes ("abc")) :=
  ⟨((claim7_injection (Response.mk 200 .http11 [] (strBytes ("abc"))) (by decide)).1
      (by decide)).trans (by decide),
   (claim7_injection (Response.mk 200 .http11 [(clName, [strBytes ("999")])]
      (strBytes ("abc"))) (by decide)).2
      ⟨(clName, [strBytes ("999")]), by decide, rfl⟩⟩

/-- C2 counterexample: for the input head with header lines named `a`, `b`,
`a` in that order, the parsed header sequence is not `[a, b, a]`: the
`http::HeaderMap` groups the duplicate name at its first occurrence, giving
`[a: 1, a: 3, b: 2]`. -/
theorem claim2_counterexample :
    (parse_into_request (strBytes ("GET / HTTP/1.1\r\na: 1\r\nb: 2\r\na: 3\r\n\r\n"))).map
      (fun r => flattenHeaders r.headers) =
      .ok [(strBytes ("a"), strBytes ("1")), (strBytes ("a"), strBytes ("3")),
           (strBytes ("b"), strBytes ("2"))] ∧
    ([(strBytes ("a"), strBytes ("1")), (strBytes ("a"), strBytes ("3")),
      (strBytes ("b"), strBytes ("2"))] : List (List Nat × List Nat)) ≠
      [(strBytes ("a"), strBytes ("1")), (strBytes ("b"), strBytes ("2")),
       (strBytes ("a"), strBytes ("3"))] := by decide

/-- C2 (amended): for an input head with header lines `a: v1`, `b: v2`,
`a: v3` (`a` duplicated, both names distinct from `content-length`), the
parsed header sequence is grouped by name at first occurrence —
`[a: v1, a: v3, b: v2]` — and `to_http` serialises the parsed message with
the header lines in exactly that grouped order. -/
theorem claim2_order (m u a b v1 v2 v3 tail : List Nat)
    (hm : wfMethod m) (hu : wfHttpUri u)
    (ha : wfStoredName a) (hb : wfStoredName b)
    (hv1 : wfValue v1) (hv2 : wfValue v2) (hv3 : wfValue v3)
    (hab : a ≠ b) (hacl : a ≠ clName) (hbcl : b ≠ clName) :
    parse_into_request (mkReqStream m u [(a, v1), (b, v2), (a, v3)] tail) =
      .ok (Request.mk m u .http11 [(a, [v1, v3]), (b, [v2])] []) ∧
    flattenHeaders [(a, [v1, v3]), (b, [v2])] = [(a, v1), (a, v3), (b, v2)] ∧
    Request.to_http (Request.mk m u .http11 [(a, [v1, v3]), (b, [v2])] []) =
      mkReqStream m u [(a, v1), (a, v3), (b, v2)] [] := by
  have hwf : wfPairs [(a, v1), (b, v2), (a, v3)] := by
    intro p hp
    simp at hp
    rcases hp with hp | hp | hp <;> subst hp
    · exact ⟨wfStoredName_wfName ha, hv1⟩
    · exact ⟨wfStoredName_wfName hb, hv2⟩
    · exact ⟨wfStoredName_wfName ha, hv3⟩
  have hnone : bodyLength [(a, v1), (b, v2), (a, v3)] = .ok 0 := by
    apply bodyLength_none
    intro p hp
    simp at hp
    rcases hp with hp | hp | hp <;> subst hp
    · exact hacl
    · exact hbcl
    · exact hacl
  have hbuild : buildFold [] [(a, v1), (b, v2), (a, v3)] =
      .ok [(a, [v1, v3]), (b, [v2])] := by
    rw [buildFold_cons_ok (checkName_of_wf (wfStoredName_wfName ha)) (checkValue_of_wf hv1),
      buildFold_cons_ok (checkName_of_wf (wfStoredName_wfName hb)) (checkValue_of_wf hv2),
      buildFold_cons_ok (checkName_of_wf (wfStoredName_wfName ha)) (checkValue_of_wf hv3)]
    simp only [lowerName_id ha.2, lowerName_id hb.2]
    simp [hmAppend, buildFold, hab]
  refine ⟨?_, by simp [flattenHeaders], ?_⟩
  · rw [parse_into_request_mk tail hm (wfHttpUri_wfUri hu) hwf, if_pos (by simp)]
    rw [requestOfHead_cllen hnone]
    unfold requestOfParts
    rw [show readExact 0 tail = .ok [] by
      unfold readExact
      simp]
    rw [show checkUri (HReq.mk (some m) (some u) [(a, v1), (b, v2), (a, v3)]).path = true from
      checkUri_of_wf hu]
    rw [show buildFold [] (HReq.mk (some m) (some u) [(a, v1), (b, v2), (a, v3)]).headers =
        .ok [(a, [v1, v3]), (b, [v2])] from hbuild]
    rfl
  · unfold Request.to_http mkReqStream
    simp [flattenHeaders, versionBytes, List.append_assoc]

theorem claim2_witness :
    parse_into_request (mkReqStream (strBytes ("GET")) (strBytes ("/"))
      [(strBytes ("a"), strBytes ("1")), (strBytes ("b"), strBytes ("2")),
       (strBytes ("a"), strBytes ("3"))] []) =
      .ok (Request.mk (strBytes ("GET")) (strBytes ("/")) .http11
        [(strBytes ("a"), [strBytes ("1"), strBytes ("3")]),
         (strBytes ("b"), [strBytes ("2")])] []) :=
  (claim2_order (strBytes ("GET")) (strBytes ("/")) (strBytes ("a")) (strBytes ("b"))
    (strBytes ("1")) (strBytes ("2")) (strBytes ("3")) [] (by decide) (by decide) (by decide)
    (by decide) (by decide) (by decide) (by decide) (by decide) (by decide) (by decide)).1

/-- C1 counterexample: `cReq17` has a body and a content-length header equal
to the body's byte length, yet parsing its serialisation does not return the
request: with 17 header lines the parse fails outright. -/
theorem claim1_counterexample :
    (flattenHeaders cReq17.headers).find? (fun h => decide (h.1 = clName)) =
      some (clName, decimalBytes cReq17.body.length) ∧
    cReq17.body ≠ [] ∧
    parse_into_request (Request.to_http cReq17) =
      .error (.ParsingError (hpErrMsg .tooManyHeaders)) := by decide

/-- C1 (amended): parsing the serialisation returns the request itself for
every well-formed request with version HTTP/1.1, an origin-form target made
of bytes the `http` crate accepts, at most 16 header lines, and whose first
`content-length` header value is the decimal byte length of the body (below
2^64, the `usize` range). -/
theorem claim1_roundtrip (r : Request)
    (hv : r.version = .http11) (hm : wfMethod r.method) (hu : wfHttpUri r.uri)
    (hw : wfHeaderMap r.headers)
    (hlen : (flattenHeaders r.headers).length ≤ 16)
    (hcl : (flattenHeaders r.headers).find? (fun h => decide (h.1 = clName)) =
      some (clName, decimalBytes r.body.length))
    (hsize : r.body.length < 2 ^ 64) :
    parse_into_request (Request.to_http r) = .ok r := by
  obtain ⟨mth, uri, ver, hmap, bd⟩ := r
  have hv2 : ver = HVersion.http11 := hv
  subst hv2
  have hserial : Request.to_http (Request.mk mth uri .http11 hmap bd) =
      mkReqStream mth uri (flattenHeaders hmap) bd := rfl
  rw [hserial, parse_into_request_mk bd hm (wfHttpUri_wfUri hu) (wfPairs_flatten hw),
    if_pos hlen]
  have hbl : bodyLength (flattenHeaders hmap) = .ok bd.length := by
    unfold bodyLength
    rw [hcl]
    exact parseUsize_decimal hsize
  rw [requestOfHead_cllen hbl]
  unfold requestOfParts
  rw [show readExact bd.length bd = .ok bd by
    unfold readExact
    rw [if_neg (by omega), List.take_length]]
  rw [show checkUri (HReq.mk (some mth) (some uri) (flattenHeaders hmap)).path = true from
    checkUri_of_wf hu]
  rw [show buildFold []
      (HReq.mk (some mth) (some uri) (flattenHeaders hmap)).headers = .ok hmap from
    buildFold_replay hw]
  rfl

theorem claim1_witness : parse_into_request (Request.to_http cReqW) = .ok cReqW :=
  claim1_roundtrip cReqW rfl (by decide) (by decide) (by decide) (by decide) (by decide)
    (by decide)

end KlHttp

